import Mathlib

/-!
Shallow embedding of `src/scripts/standalone_stock_ingest.py` for verification.

Modelling conventions, fixed once for the whole file:
* Python strings are Lean `String`; `str.strip()`, `str.lower()`,
  `str.upper()`, `str.split()` and `str.replace` are given structurally
  recursive character-list implementations (`pyStrip`, `pyLower`, `pyUpper`,
  `pySplit`, `stripHyphens`), as is Python's
  lexicographic string comparison (`pyStrLt`, by code point).
* Python `datetime.date` values are `GDate` (proleptic Gregorian calendar);
  `timedelta(days=1)` subtraction is `prevDay`.
* Numeric payload fields that the script parses with `float(...)` are modelled
  as already-parsed rationals at the provider boundary (no claim concerns the
  parsing of those numerals or float rounding).
* sqlite is a `Store` of per-table row lists; a `Conn` separates the pending
  (in-transaction) state from the last committed (durable) state, and
  `INSERT ... ON CONFLICT(key) DO UPDATE` is `upsertByKey` with the table's
  natural key and per-table merge function.
* Network calls are oracle functions returning `Except String _`; a `.error`
  value is a raised exception carrying `str(exc)`.
-/

set_option maxRecDepth 2000

namespace StockIngest

/-- Python `str.strip()` (whitespace from both ends). -/
def pyStrip (s : String) : String :=
  String.mk (((s.toList.dropWhile Char.isWhitespace).reverse.dropWhile Char.isWhitespace).reverse)

/-- Python `str.lower()`. -/
def pyLower (s : String) : String :=
  String.mk (s.toList.map Char.toLower)

/-- Python `str.upper()`. -/
def pyUpper (s : String) : String :=
  String.mk (s.toList.map Char.toUpper)

def splitCharsAux (sep : Char) : List Char → List Char → List String
  | [], acc => [String.mk acc.reverse]
  | c :: rest, acc =>
    if c = sep then String.mk acc.reverse :: splitCharsAux sep rest []
    else splitCharsAux sep rest (c :: acc)

/-- Python `str.split(sep)` for a one-character separator. -/
def pySplit (sep : Char) (s : String) : List String :=
  splitCharsAux sep s.toList []

/-- Python `str.replace("-", "")`. -/
def stripHyphens (s : String) : String :=
  String.mk (s.toList.filter (fun c => c ≠ '-'))

/-- `"sep".join(lines)`. -/
def joinWith (sep : String) : List String → String
  | [] => ""
  | [x] => x
  | x :: xs => x ++ sep ++ joinWith sep xs

def charListLt : List Char → List Char → Bool
  | [], [] => false
  | [], _ :: _ => true
  | _ :: _, [] => false
  | a :: as, b :: bs =>
    if a.toNat < b.toNat then true
    else if b.toNat < a.toNat then false
    else charListLt as bs

/-- Python `a < b` on strings: lexicographic by code point. -/
def pyStrLt (a b : String) : Bool :=
  charListLt a.toList b.toList

/-- Python `min` of two strings (lexicographic). -/
def minStr (a b : String) : String :=
  if pyStrLt b a then b else a

/-- Gregorian calendar date (year, month, day) as used by Python `datetime.date`. -/
structure GDate where
  y : Nat
  m : Nat
  d : Nat
  deriving DecidableEq, Repr

def isLeap (y : Nat) : Bool :=
  (y % 4 == 0 && y % 100 != 0) || y % 400 == 0

def daysInMonth (y m : Nat) : Nat :=
  if m = 2 then (if isLeap y then 29 else 28)
  else if m = 4 ∨ m = 6 ∨ m = 9 ∨ m = 11 then 30
  else 31

/-- One day earlier (`date - timedelta(days=1)`), defined for dates after 0001-01-01. -/
def prevDay (dt : GDate) : GDate :=
  if 2 ≤ dt.d then ⟨dt.y, dt.m, dt.d - 1⟩
  else if 2 ≤ dt.m then ⟨dt.y, dt.m - 1, daysInMonth dt.y (dt.m - 1)⟩
  else ⟨dt.y - 1, 12, 31⟩

/-- One day later (`date + timedelta(days=1)`). -/
def nextDay (dt : GDate) : GDate :=
  if dt.d < daysInMonth dt.y dt.m then ⟨dt.y, dt.m, dt.d + 1⟩
  else if dt.m < 12 then ⟨dt.y, dt.m + 1, 1⟩
  else ⟨dt.y + 1, 1, 1⟩

/-- `date - timedelta(days=n)` for a nonnegative count. -/
def dateSubDays (dt : GDate) (n : Nat) : GDate :=
  Nat.iterate prevDay n dt

/-- `date - timedelta(days=d)` for a possibly negative Python `int`. -/
def dateSubDaysInt (dt : GDate) (d : Int) : GDate :=
  if 0 ≤ d then dateSubDays dt d.toNat
  else Nat.iterate nextDay (-d).toNat dt

/-- Zero-padded decimal rendering of width `w` (as `strftime` zero-pads fields). -/
def padNum (w : Nat) (n : Nat) : String :=
  let s := toString n
  String.mk (List.replicate (w - s.length) '0') ++ s

/-- `date.strftime("%Y%m%d")`. -/
def formatYYYYMMDD (dt : GDate) : String :=
  padNum 4 dt.y ++ padNum 2 dt.m ++ padNum 2 dt.d

/-- `date.isoformat()`. -/
def isoFormat (dt : GDate) : String :=
  padNum 4 dt.y ++ "-" ++ padNum 2 dt.m ++ "-" ++ padNum 2 dt.d

def digitsToNat (cs : List Char) : Nat :=
  cs.foldl (fun a c => a * 10 + (c.toNat - '0'.toNat)) 0

/-- The range check `datetime` performs when a parsed (y, m, d) is materialised. -/
def validGDate (y m d : Nat) : Bool :=
  1 ≤ y && y ≤ 9999 && 1 ≤ m && m ≤ 12 && 1 ≤ d && d ≤ daysInMonth y m

/-- `datetime.strptime(s, "%Y%m%d")`, returning `none` on `ValueError`. -/
def parseYYYYMMDD (s : String) : Option GDate :=
  let cs := s.toList
  if cs.length = 8 ∧ cs.all Char.isDigit then
    let y := digitsToNat (cs.take 4)
    let m := digitsToNat ((cs.drop 4).take 2)
    let d := digitsToNat (cs.drop 6)
    if validGDate y m d then some ⟨y, m, d⟩ else none
  else none

/-- `datetime.strptime(raw, "%Y<sep>%m<sep>%d")`: each field is 1 to 4 (year)
or 1 to 2 (month, day) digits, then range-checked. `none` on `ValueError`. -/
def parseSepDate (sep : Char) (raw : String) : Option GDate :=
  match pySplit sep raw with
  | [ys, ms, ds] =>
    let fieldOk := fun (t : List Char) (w : Nat) => t ≠ [] && t.length ≤ w && t.all Char.isDigit
    if fieldOk ys.toList 4 && fieldOk ms.toList 2 && fieldOk ds.toList 2 then
      let y := digitsToNat ys.toList
      let m := digitsToNat ms.toList
      let d := digitsToNat ds.toList
      if validGDate y m d then some ⟨y, m, d⟩ else none
    else none
  | _ => none

/-- The `datetime.fromisoformat` fallback of `to_yyyymmdd`: a strict
`YYYY-MM-DD` calendar date, optionally followed by a time-of-day part
(introduced by `T` or a space) whose content is not further modelled. -/
def parseIsoDateTime (raw : String) : Option GDate :=
  match raw.toList with
  | a :: b :: c :: e :: '-' :: f :: g :: '-' :: h :: i :: rest =>
    if [a, b, c, e, f, g, h, i].all Char.isDigit &&
        (rest = [] || rest.head? = some 'T' || rest.head? = some ' ') then
      let y := digitsToNat [a, b, c, e]
      let m := digitsToNat [f, g]
      let d := digitsToNat [h, i]
      if validGDate y m d then some ⟨y, m, d⟩ else none
    else none
  | _ => none

/-- `to_yyyymmdd` from the script: falsy input is `None`; an 8-digit string is
returned as-is (no calendar validity check); otherwise the `%Y-%m-%d`,
`%Y/%m/%d` and ISO formats are tried in order. -/
def to_yyyymmdd (value : Option String) : Option String :=
  match value with
  | none => none
  | some v =>
    if v = "" then none
    else
      let raw := pyStrip v
      if raw.toList.length = 8 ∧ raw.toList.all Char.isDigit then some raw
      else
        match parseSepDate '-' raw with
        | some dt => some (formatYYYYMMDD dt)
        | none =>
          match parseSepDate '/' raw with
          | some dt => some (formatYYYYMMDD dt)
          | none => (parseIsoDateTime raw).map formatYYYYMMDD

/-- `to_iso_date` from the script: `to_yyyymmdd` re-rendered as `YYYY-MM-DD`. -/
def to_iso_date (value : Option String) : Option String :=
  match to_yyyymmdd value with
  | none => none
  | some ymd =>
    some (String.mk (ymd.toList.take 4) ++ "-" ++
      String.mk ((ymd.toList.drop 4).take 2) ++ "-" ++
      String.mk (ymd.toList.drop 6))

/-- `normalize_symbol`: keep the digit characters of the stripped input, reject
an empty or longer-than-6 digit string, and zero-fill to width 6. -/
def normalize_symbol (value : String) : Option String :=
  let digits := (pyStrip value).toList.filter Char.isDigit
  if digits = [] ∨ digits.length > 6 then none
  else some (String.mk (List.replicate (6 - digits.length) '0' ++ digits))

/-- Python `a or b` for strings (empty string is falsy). -/
def pyOrString (a b : String) : String :=
  if a = "" then b else a

/-- Python `a or b` for `str | None` against a string default. -/
def pyOrOpt (a : Option String) (b : String) : String :=
  match a with
  | none => b
  | some s => if s = "" then b else s

/-- The recognised run configuration, mirroring the `run` subcommand's options
(defaults as declared in `build_parser`) plus the four environment-sourced
credentials attached in `main`. -/
structure Args where
  run_type : String := "all"
  scope : String := "single"
  symbol : List String := []
  symbols : String := ""
  source_profile : String := "all"
  timeframes : List String := ["D"]
  as_of : Option String := none
  as_of_from : Option String := none
  as_of_to : Option String := none
  prices_window : String := "fast"
  prices_lookback_days : Option Int := none
  prices_backfill : Bool := false
  limit_symbols : Option Int := none
  dry_run : Bool := false
  kis_max_price_pages : Int := 3
  kis_app_key : String := ""
  kis_app_secret : String := ""
  kis_account_no : String := ""
  dart_api_key : String := ""

def addSymbolIfNew (out : List String) (raw : String) : List String :=
  match normalize_symbol raw with
  | some s => if s ∈ out then out else out ++ [s]
  | none => out

/-- `parse_symbols`: normalize every `--symbol` value and every comma token of
`--symbols`, silently dropping non-normalizable input, deduplicating in order. -/
def parse_symbols (args : Args) : List String :=
  let out := args.symbol.foldl addSymbolIfNew []
  (pySplit ',' args.symbols).foldl
    (fun out token =>
      let token := pyStrip token
      if token = "" then out else addSymbolIfNew out token)
    out

/-- One raw candle item of a KIS chart-price page (payload keys read by
`fetch_price_rows`; numeric fields modelled as parsed rationals). -/
structure RawCandle where
  stck_bsop_date : String := ""
  stck_oprc : Rat := 0
  stck_hgpr : Rat := 0
  stck_lwpr : Rat := 0
  stck_clpr : Rat := 0
  acml_vol : Rat := 0
  deriving DecidableEq, Repr

/-- The fields of a KIS chart-price response that `fetch_price_rows` inspects:
`str(data.get("rt_cd"))` and the `output2` / `output` candle lists (`none`
models an absent or non-list value). -/
structure KisResponse where
  rt_cd : String := "0"
  output2 : Option (List RawCandle) := none
  output : Option (List RawCandle) := none
  deriving DecidableEq, Repr

/-- `data.get("output2") or data.get("output") or []` followed by the
list/emptiness check: an empty `output2` list is falsy and falls through. -/
def effectiveOutput (r : KisResponse) : List RawCandle :=
  match r.output2 with
  | some (x :: xs) => x :: xs
  | _ =>
    match r.output with
    | some l => l
    | none => []

/-- One normalized price row appended by `fetch_price_rows`. -/
structure PriceRow where
  symbol : String
  timeframe : String
  candle_at : String
  «open» : Rat
  high : Rat
  low : Rat
  close : Rat
  volume : Rat
  provider : String
  raw : RawCandle
  deriving DecidableEq, Repr

def mkPriceRow (symbol timeframe : String) (raw : RawCandle) (candle_at : String) : PriceRow :=
  { symbol := symbol, timeframe := timeframe, candle_at := candle_at,
    «open» := raw.stck_oprc, high := raw.stck_hgpr, low := raw.stck_lwpr,
    close := raw.stck_clpr, volume := raw.acml_vol, provider := "kis", raw := raw }

/-- The per-page loop body of `fetch_price_rows`: append every item with a
non-empty stripped candle date, and track `oldest`, which the source reassigns
on every appended item (so it ends as the LAST appended date, not the minimum). -/
def processPage (symbol timeframe : String) : List RawCandle → List PriceRow × Option String
  | [] => ([], none)
  | raw :: rest =>
    let candle_at := pyStrip raw.stck_bsop_date
    if candle_at = "" then processPage symbol timeframe rest
    else
      let pr := processPage symbol timeframe rest
      (mkPriceRow symbol timeframe raw candle_at :: pr.1, some (pr.2.getD candle_at))

/-- Outcome of the date-sliding step
`(datetime.strptime(oldest, "%Y%m%d") - timedelta(days=1)).strftime("%Y%m%d")`:
`halt` is the `ValueError` branch (`break`), `overflow` is the uncaught
`OverflowError` raised when subtracting a day from 0001-01-01. -/
inductive SlideOutcome where
  | next (s : String)
  | halt
  | overflow
  deriving DecidableEq, Repr

def slideCurrentTo (oldest : String) : SlideOutcome :=
  match parseYYYYMMDD oldest with
  | none => .halt
  | some dt =>
    if dt = ⟨1, 1, 1⟩ then .overflow
    else .next (formatYYYYMMDD (prevDay dt))

/-- Result of the pagination loop. `calls` records the `FID_INPUT_DATE_2`
upper bound of every request performed, in order (a ghost trace; the source
returns only `rows`). `error = some msg` models an uncaught exception. -/
structure FetchResult where
  rows : List PriceRow
  calls : List String
  error : Option String
  deriving DecidableEq, Repr

/-- The `for _ in range(max_pages)` pagination loop of `fetch_price_rows`.
`page` is the provider's response as a function of the current upper bound
(the other request fields are fixed for the whole loop); fuel counts the
remaining allowed pages. -/
def fetchLoop (page : String → Except String KisResponse)
    (symbol timeframe from_date : String) :
    Nat → String → List PriceRow → FetchResult
  | 0, _, acc => { rows := acc, calls := [], error := none }
  | fuel + 1, current_to, acc =>
    match page current_to with
    | .error e => { rows := acc, calls := [current_to], error := some e }
    | .ok data =>
      if data.rt_cd ≠ "0" then { rows := acc, calls := [current_to], error := none }
      else
        match effectiveOutput data with
        | [] => { rows := acc, calls := [current_to], error := none }
        | output =>
          let pr := processPage symbol timeframe output
          let acc := acc ++ pr.1
          match pr.2 with
          | none => { rows := acc, calls := [current_to], error := none }
          | some o =>
            if pyStrLt from_date o then
              match slideCurrentTo o with
              | .halt => { rows := acc, calls := [current_to], error := none }
              | .overflow =>
                { rows := acc, calls := [current_to], error := some "date value out of range" }
              | .next c2 =>
                let r := fetchLoop page symbol timeframe from_date fuel c2 acc
                { rows := r.rows, calls := current_to :: r.calls, error := r.error }
            else { rows := acc, calls := [current_to], error := none }

/-- `KisClient.fetch_price_rows`. `page` is the provider's chart-price endpoint
as a function of (symbol, timeframe, `FID_INPUT_DATE_1`, `FID_INPUT_DATE_2`);
`todayD` stands for `today()`; the defaults for a falsy `date_to` / `date_from`
are today and today minus 365 days. -/
def fetch_price_rows (page : String → String → String → String → Except String KisResponse)
    (symbol timeframe : String) (date_from date_to : Option String)
    (todayD : GDate) (max_pages : Nat) : FetchResult :=
  let timeframe := if timeframe ∈ ["D", "W", "M", "Y"] then timeframe else "D"
  let to_date := pyOrOpt date_to (formatYYYYMMDD todayD)
  let from_date := pyOrOpt date_from (formatYYYYMMDD (dateSubDays todayD 365))
  fetchLoop (page symbol timeframe from_date) symbol timeframe from_date max_pages to_date []

/-- Running minimum over a list of date strings (claim-side helper). -/
def minFold : Option String → List String → Option String
  | acc, [] => acc
  | none, s :: rest => minFold (some s) rest
  | some m, s :: rest => minFold (some (minStr m s)) rest

/-- The non-empty stripped candle dates of a page, in page order. -/
def pageDates (output : List RawCandle) : List String :=
  (output.map (fun r => pyStrip r.stck_bsop_date)).filter (fun s => s ≠ "")

/-- What the claims call the page's oldest candle date: the minimum candle
date among the page's items with a non-empty (stripped) candle date. -/
def oldestDateSpec (output : List RawCandle) : Option String :=
  minFold none (pageDates output)

/-- The date the source actually tracks: the last non-empty stripped candle
date of the page, in page order. -/
def lastPageDate (output : List RawCandle) : Option String :=
  (pageDates output).getLast?

/-- A list of date strings in strictly descending order (the order KIS
actually serves candle pages in). -/
def strictlyDescending : List String → Bool
  | [] => true
  | [_] => true
  | a :: b :: rest => pyStrLt b a && strictlyDescending (b :: rest)

/-- Fields of the `inquire-psbl-order` response read by `fetch_margin_rows`. -/
structure PsblOrderResp where
  rt_cd : String := "0"
  msg1 : Option String := none
  deriving DecidableEq, Repr

/-- Fields of the `intgr-margin` response read by `fetch_margin_rows`:
`acmga_rt` is the `to_float_or_none` parse of `output["acmga_rt"]`
(`none` when absent, empty or unparseable). -/
structure IntgrMarginResp where
  rt_cd : String := "0"
  acmga_rt : Option Rat := none
  deriving DecidableEq, Repr

/-- One margin result row produced by `fetch_margin_rows`. -/
structure MarginRow where
  symbol : String
  margin_rate_pct : Option Rat
  is_full_margin : Bool
  collection_status : String
  message : String
  deriving DecidableEq, Repr

/-- The per-symbol body of `fetch_margin_rows`, with the surrounding
`try/except` folded in: an `.error` from either call produces the
caught-exception row for that symbol. -/
def marginRowFor (call1 : String → Except String PsblOrderResp)
    (call2 : String → Except String IntgrMarginResp) (symbol : String) : MarginRow :=
  match call1 symbol with
  | .error e =>
    { symbol := symbol, margin_rate_pct := none, is_full_margin := false,
      collection_status := "failed", message := "조회 실패: " ++ e }
  | .ok data =>
    if data.rt_cd ≠ "0" then
      { symbol := symbol, margin_rate_pct := none, is_full_margin := false,
        collection_status := "failed",
        message := pyOrString (pyStrip (data.msg1.getD "조회 실패")) "조회 실패" }
    else
      match call2 symbol with
      | .error e =>
        { symbol := symbol, margin_rate_pct := none, is_full_margin := false,
          collection_status := "failed", message := "조회 실패: " ++ e }
      | .ok data2 =>
        let margin_rate_pct : Option Rat :=
          if data2.rt_cd = "0" then data2.acmga_rt else none
        let is_full : Bool :=
          if data2.rt_cd = "0" then
            match data2.acmga_rt with
            | some r => decide ((100 : Rat) ≤ r)
            | none => false
          else false
        match margin_rate_pct with
        | some r =>
          { symbol := symbol, margin_rate_pct := some r, is_full_margin := is_full,
            collection_status := "collected",
            message := "증거금율 " ++ toString r ++ "%" }
        | none =>
          { symbol := symbol, margin_rate_pct := none, is_full_margin := is_full,
            collection_status := "failed", message := "증거금 정보 없음" }

/-- `KisClient.fetch_margin_rows`: empty result for an empty symbol list or a
missing/short account number, else one row per symbol in order. `account_no`
is the client's already-stripped account string. -/
def fetch_margin_rows (call1 : String → Except String PsblOrderResp)
    (call2 : String → Except String IntgrMarginResp)
    (account_no : String) (symbols : List String) : List MarginRow :=
  if symbols = [] then []
  else if account_no = "" ∨ account_no.length < 10 then []
  else symbols.map (marginRowFor call1 call2)

/-- The `SymbolEntry` dataclass. -/
structure SymbolEntry where
  stock_code : String
  name : Option String := none
  market : Option String := none
  dart_corp_code : Option String := none
  listed_date : Option String := none
  deriving DecidableEq, Repr

/-- A row of `ingest_runs` (and the in-memory `row` dict of `run_ingest`).
`notes_json` holds the decoded list (JSON serialisation elided);
`prices_backfill` is the stored 0/1 integer. -/
structure RunRow where
  run_id : String
  started_at : String
  finished_at : Option String
  status : String
  command : String
  run_type : String
  scope : String
  source_profile : String
  prices_window : String
  prices_lookback_days : Option Int
  prices_backfill : Nat
  symbols_count : Nat
  processed_symbols : Nat
  symbol_rows : Nat
  price_rows : Nat
  fundamental_rows : Nat
  event_rows : Nat
  margin_rows : Nat
  notes_json : List String
  error_message : Option String
  deriving DecidableEq, Repr

/-- A row of `symbol_universe`. -/
structure SymbolRow where
  stock_code : String
  name : Option String
  market : Option String
  sector : Option String
  dart_corp_code : Option String
  listed_date : Option String
  is_active : Nat
  is_delisted : Nat
  updated_at : String
  deriving DecidableEq, Repr

/-- A row of `raw_price_ohlcv` (the autoincrement surrogate id is elided;
`raw_payload` keeps the structured payload instead of its JSON dump). -/
structure PriceDbRow where
  run_id : String
  stock_code : String
  timeframe : String
  candle_at : String
  open_price : Rat
  high_price : Rat
  low_price : Rat
  close_price : Rat
  volume : Rat
  source : String
  as_of : Option String
  collected_at : String
  raw_payload : RawCandle
  deriving DecidableEq, Repr

/-- One fundamental item row as produced by `fetch_fundamental_rows` and
consumed by `upsert_fundamental` (the raw payload dict is an opaque string). -/
structure FundRow where
  symbol : String
  report_type : String
  period_yyyymm : String
  report_term : String
  item_key : String
  item_label : String
  item_value : Option Rat
  unit : Option String
  currency : Option String
  source : String
  source_key : String
  raw : String
  deriving DecidableEq, Repr

/-- A row of `raw_fundamental_statement`. -/
structure FundDbRow where
  run_id : String
  stock_code : String
  report_type : String
  period_yyyymm : String
  report_term : String
  item_key : String
  item_label : String
  item_value : Option Rat
  unit : Option String
  currency : Option String
  source : String
  source_key : String
  collected_at : String
  raw_payload : String
  deriving DecidableEq, Repr

/-- One event row as produced by `fetch_dart_events`. -/
structure EventRow where
  event_time : String
  event_type : String
  severity : Int
  headline : String
  summary : Option String
  source : String
  source_event_id : String
  raw : String
  deriving DecidableEq, Repr

/-- A row of `raw_event_feed`. -/
structure EventDbRow where
  run_id : String
  stock_code : Option String
  event_time : String
  event_type : String
  severity : Int
  headline : String
  summary : Option String
  source : String
  source_event_id : String
  collected_at : String
  raw_payload : String
  deriving DecidableEq, Repr

/-- A row of `symbol_margin_policy` (`is_full_margin` is the stored 0/1). -/
structure MarginDbRow where
  run_id : String
  stock_code : String
  as_of : String
  is_full_margin : Nat
  margin_rate_pct : Option Rat
  collection_status : String
  source_note : Option String
  collected_at : String
  deriving DecidableEq, Repr

/-- The sqlite database: the six tables created by `SCHEMA_SQL`, each as a
row list in rowid order. -/
structure Store where
  ingest_runs : List RunRow := []
  symbol_universe : List SymbolRow := []
  raw_price_ohlcv : List PriceDbRow := []
  raw_fundamental_statement : List FundDbRow := []
  raw_event_feed : List EventDbRow := []
  symbol_margin_policy : List MarginDbRow := []
  deriving DecidableEq, Repr

/-- A sqlite connection: the durably committed state and the pending
in-transaction state the connection's own statements see. -/
structure Conn where
  committed : Store
  pending : Store
  deriving DecidableEq, Repr

def Conn.commit (c : Conn) : Conn :=
  { committed := c.pending, pending := c.pending }

def connectStore (s : Store) : Conn :=
  { committed := s, pending := s }

/-- `INSERT ... ON CONFLICT(key) DO UPDATE`: update the row with the same
natural key in place via `merge old new`, else append the new row. -/
def upsertByKey {α : Type} {κ : Type} [DecidableEq κ]
    (key : α → κ) (merge : α → α → α) (new : α) : List α → List α
  | [] => [new]
  | r :: rs =>
    if key r = key new then merge r new :: rs
    else r :: upsertByKey key merge new rs

/-- The `ON CONFLICT(run_id) DO UPDATE SET` list of `upsert_run`
(note `started_at`, the config echo and `symbols_count` are not updated). -/
def runMerge (old new : RunRow) : RunRow :=
  { old with
    finished_at := new.finished_at
    status := new.status
    processed_symbols := new.processed_symbols
    symbol_rows := new.symbol_rows
    price_rows := new.price_rows
    fundamental_rows := new.fundamental_rows
    event_rows := new.event_rows
    margin_rows := new.margin_rows
    notes_json := new.notes_json
    error_message := new.error_message }

def upsert_run (c : Conn) (row : RunRow) : Conn :=
  { c with pending :=
    { c.pending with ingest_runs := upsertByKey RunRow.run_id runMerge row c.pending.ingest_runs } }

/-- Coalesce-preserve merge of `upsert_symbol` (`sector`, `is_active`,
`is_delisted` are not in the update list and keep their old values). -/
def symbolMerge (old new : SymbolRow) : SymbolRow :=
  { old with
    name := new.name <|> old.name
    market := new.market <|> old.market
    dart_corp_code := new.dart_corp_code <|> old.dart_corp_code
    listed_date := new.listed_date <|> old.listed_date
    updated_at := new.updated_at }

/-- The VALUES tuple of `upsert_symbol` (sector NULL, active 1, delisted 0,
`listed_date` converted with `to_iso_date`). -/
def symbolInsertRow (e : SymbolEntry) (now : String) : SymbolRow :=
  { stock_code := e.stock_code, name := e.name, market := e.market, sector := none,
    dart_corp_code := e.dart_corp_code, listed_date := to_iso_date e.listed_date,
    is_active := 1, is_delisted := 0, updated_at := now }

def upsert_symbol (c : Conn) (e : SymbolEntry) (now : String) : Conn :=
  let t := upsertByKey SymbolRow.stock_code symbolMerge (symbolInsertRow e now)
    c.pending.symbol_universe
  { c with pending := { c.pending with symbol_universe := t } }

/-- Natural key of `raw_price_ohlcv`. -/
def priceKey (r : PriceDbRow) : String × String × String × String :=
  (r.stock_code, r.timeframe, r.candle_at, r.source)

/-- Full-overwrite merge of `upsert_price` (every non-key column, including
`run_id`, is taken from the new row). -/
def priceMerge (old new : PriceDbRow) : PriceDbRow :=
  { old with
    run_id := new.run_id
    open_price := new.open_price
    high_price := new.high_price
    low_price := new.low_price
    close_price := new.close_price
    volume := new.volume
    as_of := new.as_of
    collected_at := new.collected_at
    raw_payload := new.raw_payload }

/-- The row `upsert_price` inserts, `none` when the candle date does not
normalize (the early `return` before any write). -/
def mkPriceDbRow (run_id : String) (row : PriceRow) (as_of : Option String)
    (now : String) : Option PriceDbRow :=
  match to_iso_date (some row.candle_at) with
  | none => none
  | some candle_at =>
    some { run_id := run_id, stock_code := row.symbol, timeframe := row.timeframe,
           candle_at := candle_at, open_price := row.«open», high_price := row.high,
           low_price := row.low, close_price := row.close, volume := row.volume,
           source := row.provider, as_of := as_of, collected_at := now,
           raw_payload := row.raw }

def upsert_price (c : Conn) (run_id : String) (row : PriceRow) (as_of : Option String)
    (now : String) : Conn :=
  match mkPriceDbRow run_id row as_of now with
  | none => c
  | some dbr =>
    let t := upsertByKey priceKey priceMerge dbr c.pending.raw_price_ohlcv
    { c with pending := { c.pending with raw_price_ohlcv := t } }

/-- Natural key of `raw_fundamental_statement` (`report_term` is not part of it). -/
def fundKey (r : FundDbRow) : String × String × String × String × String × String :=
  (r.stock_code, r.report_type, r.period_yyyymm, r.item_key, r.source, r.source_key)

def fundMerge (old new : FundDbRow) : FundDbRow :=
  { old with
    run_id := new.run_id
    item_value := new.item_value
    item_label := new.item_label
    unit := new.unit
    currency := new.currency
    collected_at := new.collected_at
    raw_payload := new.raw_payload }

def mkFundDbRow (run_id : String) (row : FundRow) (now : String) : FundDbRow :=
  { run_id := run_id, stock_code := row.symbol, report_type := row.report_type,
    period_yyyymm := row.period_yyyymm, report_term := row.report_term,
    item_key := row.item_key, item_label := row.item_label, item_value := row.item_value,
    unit := row.unit, currency := row.currency, source := row.source,
    source_key := row.source_key, collected_at := now, raw_payload := row.raw }

def upsert_fundamental (c : Conn) (run_id : String) (row : FundRow) (now : String) : Conn :=
  let t := upsertByKey fundKey fundMerge (mkFundDbRow run_id row now)
    c.pending.raw_fundamental_statement
  { c with pending := { c.pending with raw_fundamental_statement := t } }

/-- Natural key of `raw_event_feed`. -/
def eventKey (r : EventDbRow) : String × String :=
  (r.source, r.source_event_id)

def eventMerge (old new : EventDbRow) : EventDbRow :=
  { old with
    run_id := new.run_id
    stock_code := new.stock_code
    event_time := new.event_time
    event_type := new.event_type
    severity := new.severity
    headline := new.headline
    summary := new.summary
    collected_at := new.collected_at
    raw_payload := new.raw_payload }

def mkEventDbRow (run_id : String) (stock_code : Option String) (row : EventRow)
    (now : String) : EventDbRow :=
  { run_id := run_id, stock_code := stock_code, event_time := row.event_time,
    event_type := row.event_type, severity := row.severity, headline := row.headline,
    summary := row.summary, source := row.source, source_event_id := row.source_event_id,
    collected_at := now, raw_payload := row.raw }

def upsert_event (c : Conn) (run_id : String) (stock_code : Option String)
    (row : EventRow) (now : String) : Conn :=
  let t := upsertByKey eventKey eventMerge (mkEventDbRow run_id stock_code row now)
    c.pending.raw_event_feed
  { c with pending := { c.pending with raw_event_feed := t } }

/-- Natural key of `symbol_margin_policy`. -/
def marginKey (r : MarginDbRow) : String × String :=
  (r.stock_code, r.as_of)

def marginMerge (old new : MarginDbRow) : MarginDbRow :=
  { old with
    run_id := new.run_id
    is_full_margin := new.is_full_margin
    margin_rate_pct := new.margin_rate_pct
    collection_status := new.collection_status
    source_note := new.source_note
    collected_at := new.collected_at }

def mkMarginDbRow (run_id stock_code as_of : String) (is_full_margin : Bool)
    (margin_rate_pct : Option Rat) (collection_status : String)
    (source_note : Option String) (now : String) : MarginDbRow :=
  { run_id := run_id, stock_code := stock_code, as_of := as_of,
    is_full_margin := if is_full_margin then 1 else 0,
    margin_rate_pct := margin_rate_pct, collection_status := collection_status,
    source_note := source_note, collected_at := now }

def upsert_margin_policy (c : Conn) (run_id stock_code as_of : String)
    (is_full_margin : Bool) (margin_rate_pct : Option Rat)
    (collection_status : String) (source_note : Option String) (now : String) : Conn :=
  let t := upsertByKey marginKey marginMerge
    (mkMarginDbRow run_id stock_code as_of is_full_margin margin_rate_pct
      collection_status source_note now)
    c.pending.symbol_margin_policy
  { c with pending := { c.pending with symbol_margin_policy := t } }

/-- The `PRICES_WINDOWS` dict. -/
def PRICES_WINDOWS : List (String × Option Nat) :=
  [("fast", some 7), ("normal", some 30), ("full", none)]

/-- The `RUN_TYPE_TO_CATEGORIES` dict. -/
def RUN_TYPE_TO_CATEGORIES : List (String × List String) :=
  [("symbols", ["symbols"]), ("prices", ["prices"]), ("fundamental", ["financials"]),
   ("financials", ["financials"]), ("events", ["events"]), ("margins", ["margins"]),
   ("all", ["symbols", "prices", "financials", "events", "margins"])]

/-- `derive_price_range`: explicit overrides, then a truthy (non-zero)
lookback-days, then the fast/normal windows, then full/backfill, else
`(None, None)`. -/
def derive_price_range (args : Args) (todayD : GDate) (symbol : SymbolEntry) :
    Option String × Option String :=
  let explicit_from := to_yyyymmdd args.as_of_from
  let explicit_to := to_yyyymmdd args.as_of_to
  if explicit_from.isSome ∨ explicit_to.isSome then (explicit_from, explicit_to)
  else if args.prices_lookback_days.getD 0 ≠ 0 then
    let d := args.prices_lookback_days.getD 0
    (some (formatYYYYMMDD (dateSubDaysInt todayD d)), some (formatYYYYMMDD todayD))
  else if args.prices_window ∈ ["fast", "normal"] then
    let days := ((PRICES_WINDOWS.lookup args.prices_window).getD none).getD 0
    (some (formatYYYYMMDD (dateSubDays todayD days)), some (formatYYYYMMDD todayD))
  else if args.prices_window = "full" ∨ args.prices_backfill then
    (some (pyOrOpt symbol.listed_date "19900101"), some (formatYYYYMMDD todayD))
  else (none, none)

/-- Modelled from the claim's wording of the five price-range policies, where
policy (2) applies whenever a lookback-days count is supplied — including a
count of 0 — with window `[today - days, today]`. Everything else follows the
code. Used only to compare the claim against `derive_price_range`. -/
def derivePriceRangeSpec (args : Args) (todayD : GDate) (symbol : SymbolEntry) :
    Option String × Option String :=
  let explicit_from := to_yyyymmdd args.as_of_from
  let explicit_to := to_yyyymmdd args.as_of_to
  if explicit_from.isSome ∨ explicit_to.isSome then (explicit_from, explicit_to)
  else
    match args.prices_lookback_days with
    | some d =>
      (some (formatYYYYMMDD (dateSubDaysInt todayD d)), some (formatYYYYMMDD todayD))
    | none =>
      if args.prices_window ∈ ["fast", "normal"] then
        let days := ((PRICES_WINDOWS.lookup args.prices_window).getD none).getD 0
        (some (formatYYYYMMDD (dateSubDays todayD days)), some (formatYYYYMMDD todayD))
      else if args.prices_window = "full" ∨ args.prices_backfill then
        (some (pyOrOpt symbol.listed_date "19900101"), some (formatYYYYMMDD todayD))
      else (none, none)

/-- The guidance text `ensure_exported_env` raises as a `SetupError`. -/
def setupGuidance (missing : List String) : String :=
  joinWith "\n"
    (["[SETUP REQUIRED] 로컬 shell 환경변수(export)가 필요합니다.",
      "누락 키: " ++ joinWith " " missing,
      "",
      "아래처럼 ~/.bashrc 또는 ~/.profile 에 export 후 source 하세요:"] ++
     missing.map (fun k => "  export " ++ k ++ "=<YOUR_VALUE>") ++
     ["  source ~/.bashrc   # 또는 source ~/.profile",
      "",
      "현재 세션 확인:"] ++
     missing.map (fun k => "  printenv " ++ k) ++
     ["", "설정 완료 후 동일 명령을 다시 실행하세요."])

/-- `ensure_exported_env`: compute which credentials are required and missing;
`.error` is the raised `SetupError` (the exit-code-3 path of `run_ingest`). -/
def ensure_exported_env (args : Args) : Except String (String × String × String) :=
  let run_type := pyLower (pyStrip args.run_type)
  let categories := (RUN_TYPE_TO_CATEGORIES.lookup run_type).getD []
  let source_profile := pyLower (pyStrip args.source_profile)
  let scope := pyLower (pyStrip args.scope)
  let is_dry := args.dry_run
  let need_kis := (["prices", "financials", "margins"].any (fun cat => categories.contains cat))
    && (source_profile == "all" || source_profile == "kis")
  let need_dart := scope == "all"
    || (categories.contains "events" && (source_profile == "all" || source_profile == "dart"))
  let missing :=
    (if !is_dry && need_kis && pyStrip args.kis_app_key == "" then ["KIS_APP_KEY"] else []) ++
    (if !is_dry && need_kis && pyStrip args.kis_app_secret == "" then ["KIS_APP_SECRET"] else []) ++
    (if !is_dry && categories.contains "margins" && (source_profile == "all" || source_profile == "kis")
        && pyStrip args.kis_account_no == "" then ["KIS_ACCOUNT_NO"] else []) ++
    (if !is_dry && need_dart && pyStrip args.dart_api_key == "" then ["DART_API_KEY"] else [])
  if missing = [] then .ok (args.kis_app_key, args.kis_app_secret, args.dart_api_key)
  else .error (setupGuidance missing)

/-- `resolve_symbols`. `dartCorpCodes` is the outcome `fetch_dart_corp_codes`
would produce if called. Errors carry `(message, notes-so-far)` since the
caller's notes list survives a raise. -/
def resolve_symbols (conn : Conn) (args : Args) (notes : List String)
    (dart_api_key : String) (dartCorpCodes : Except String (List SymbolEntry)) :
    Except (String × List String) (List SymbolEntry × List String) :=
  let user_symbols := parse_symbols args
  if args.scope = "single" then
    if user_symbols = [] then
      .error ("scope=single 에서는 --symbol 또는 --symbols 입력이 필요합니다.", notes)
    else
      .ok (user_symbols.map (fun s => { stock_code := s, name := none }), notes)
  else
    let fetched : Except (String × List String) (List SymbolEntry × List String) :=
      if dart_api_key ≠ "" then
        match dartCorpCodes with
        | .error e => .error (e, notes)
        | .ok entries =>
          .ok (entries,
            notes ++ ["all scope symbols resolved via DART corpCode: " ++ toString entries.length])
      else
        let entries := conn.pending.symbol_universe.map (fun r =>
          { stock_code := r.stock_code, name := r.name, market := r.market,
            dart_corp_code := r.dart_corp_code,
            listed_date :=
              match r.listed_date with
              | none => none
              | some s => if s = "" then none else some (stripHyphens s) })
        let notes :=
          if entries ≠ [] then
            notes ++ ["all scope symbols resolved via sqlite symbol_universe: " ++ toString entries.length]
          else notes
        .ok (entries, notes)
    match fetched with
    | .error e => .error e
    | .ok (entries, notes) =>
      if entries = [] then
        .error ("scope=all 심볼 소스를 찾지 못했습니다. DART_API_KEY를 export 하거나 sqlite symbol_universe를 먼저 채우세요.",
          notes)
      else
        match args.limit_symbols with
        | some n =>
          if 0 < n then
            let entries := entries.take n.toNat
            .ok (entries, notes ++ ["limit_symbols applied: " ++ toString entries.length])
          else .ok (entries, notes)
        | none => .ok (entries, notes)

/-- The `search-stock-info` output fields read by the enrichment step. -/
structure StockInfo where
  mket_id_cd : String := ""
  scts_mket_lstg_dt : String := ""
  prdt_abrv_name : String := ""
  deriving DecidableEq, Repr

/-- All provider endpoints `run_ingest` may hit, as oracle functions; a
`.error` is a raised exception. `price_page` takes (symbol, timeframe,
from-date, current upper bound); `dart_events` takes (corp code, begin, end). -/
structure NetOracles where
  stock_info : String → Except String StockInfo
  price_page : String → String → String → String → Except String KisResponse
  fundamentals : String → Except String (List FundRow)
  margin_psbl_order : String → Except String PsblOrderResp
  margin_intgr : String → Except String IntgrMarginResp
  dart_corp_codes : Except String (List SymbolEntry)
  dart_events : String → String → String → Except String (List EventRow)

/-- Context fixed for all category stages of one run. -/
structure StageCtx where
  args : Args
  net : NetOracles
  kis_present : Bool
  dart_key : String
  run_id : String
  nowStr : String
  todayD : GDate
  symbols : List SymbolEntry

/-- Mutable state threaded through the try-block of `run_ingest`:
the connection, the in-memory run row, the notes list, and the pending
exception (`err`), which aborts the remaining stages when set. -/
structure IngestState where
  conn : Conn
  row : RunRow
  notes : List String
  err : Option String

/-- Stage epilogue: `conn.commit()` runs at the end of a stage body, so it is
reached only when the stage body raised no exception. -/
def commitUnlessErr (st : IngestState) : IngestState :=
  match st.err with
  | some _ => st
  | none => { st with conn := st.conn.commit }

/-- Per-symbol enrichment of the symbols stage (single scope with KIS);
a failure of the lookup call is caught and recorded as a note. -/
def enrichSymbol (net : NetOracles) (sym : SymbolEntry) (notes : List String) :
    SymbolEntry × List String :=
  match net.stock_info sym.stock_code with
  | .error e => (sym, notes ++ ["symbol enrich failed " ++ sym.stock_code ++ ": " ++ e])
  | .ok info =>
    let mket_id := pyUpper (pyStrip info.mket_id_cd)
    let sym :=
      if mket_id = "STK" then { sym with market := some "KOSPI" }
      else if mket_id = "KSQ" then { sym with market := some "KOSDAQ" }
      else sym
    let listed := pyStrip info.scts_mket_lstg_dt
    let sym :=
      if listed.toList.length = 8 ∧ listed.toList.all Char.isDigit then
        { sym with listed_date := some listed }
      else sym
    let name := pyStrip info.prdt_abrv_name
    let sym := if name ≠ "" then { sym with name := some name } else sym
    (sym, notes)

def symbolsLoop (ctx : StageCtx) : List SymbolEntry → IngestState → IngestState
  | [], st => st
  | sym :: rest, st =>
    let en :=
      if ctx.kis_present && ctx.args.scope == "single" then
        enrichSymbol ctx.net sym st.notes
      else (sym, st.notes)
    let conn := upsert_symbol st.conn en.1 ctx.nowStr
    let row := { st.row with symbol_rows := st.row.symbol_rows + 1 }
    symbolsLoop ctx rest { st with conn := conn, row := row, notes := en.2 }

def symbolsStage (ctx : StageCtx) (st : IngestState) : IngestState :=
  let st := symbolsLoop ctx ctx.symbols st
  { st with conn := st.conn.commit }

/-- The `for p in price_rows` body: upsert each fetched row and increment the
run's `price_rows` counter once per row, parseable or not. -/
def upsertPriceRows (run_id : String) (as_of : Option String) (now : String)
    (ps : List PriceRow) (conn : Conn) (price_rows : Nat) : Conn × Nat :=
  ps.foldl (fun (acc : Conn × Nat) p => (upsert_price acc.1 run_id p as_of now, acc.2 + 1))
    (conn, price_rows)

def timeframesLoop (ctx : StageCtx) (sym : SymbolEntry) (date_from date_to : Option String)
    (as_of : Option String) : List String → IngestState → IngestState
  | [], st => st
  | tf :: rest, st =>
    let fr := fetch_price_rows ctx.net.price_page sym.stock_code tf date_from date_to
      ctx.todayD (max 1 ctx.args.kis_max_price_pages).toNat
    match fr.error with
    | some e => { st with err := some e }
    | none =>
      let u := upsertPriceRows ctx.run_id as_of ctx.nowStr fr.rows st.conn st.row.price_rows
      timeframesLoop ctx sym date_from date_to as_of rest
        { st with conn := u.1, row := { st.row with price_rows := u.2 } }

def pricesLoop (ctx : StageCtx) (timeframes : List String) (as_of : Option String) :
    List SymbolEntry → IngestState → IngestState
  | [], st => st
  | sym :: rest, st =>
    let (date_from, date_to) := derive_price_range ctx.args ctx.todayD sym
    let st2 := timeframesLoop ctx sym date_from date_to as_of timeframes st
    match st2.err with
    | some _ => st2
    | none =>
      let row := { st2.row with processed_symbols := st2.row.processed_symbols + 1 }
      pricesLoop ctx timeframes as_of rest { st2 with row := row }

def pricesStage (ctx : StageCtx) (st : IngestState) : IngestState :=
  if ¬ctx.kis_present then
    { st with notes := st.notes ++ ["prices skipped: KIS_APP_KEY/KIS_APP_SECRET not provided"] }
  else
    let timeframes := if ctx.args.timeframes = [] then ["D"] else ctx.args.timeframes
    let as_of := (to_iso_date ctx.args.as_of_to).orElse (fun _ => to_iso_date ctx.args.as_of)
    commitUnlessErr (pricesLoop ctx timeframes as_of ctx.symbols st)

def fundLoop (ctx : StageCtx) : List SymbolEntry → IngestState → IngestState
  | [], st => st
  | sym :: rest, st =>
    match ctx.net.fundamentals sym.stock_code with
    | .error e => { st with err := some e }
    | .ok f_rows =>
      let u := f_rows.foldl
        (fun (acc : Conn × Nat) f => (upsert_fundamental acc.1 ctx.run_id f ctx.nowStr, acc.2 + 1))
        (st.conn, st.row.fundamental_rows)
      fundLoop ctx rest { st with conn := u.1, row := { st.row with fundamental_rows := u.2 } }

def financialsStage (ctx : StageCtx) (st : IngestState) : IngestState :=
  if ¬ctx.kis_present then
    { st with notes := st.notes ++ ["financials skipped: KIS_APP_KEY/KIS_APP_SECRET not provided"] }
  else
    commitUnlessErr (fundLoop ctx ctx.symbols st)

def eventsLoop (ctx : StageCtx) (begin_d end_d : String) :
    List SymbolEntry → IngestState → IngestState
  | [], st => st
  | sym :: rest, st =>
    let corp := (sym.dart_corp_code.getD "")
    if corp = "" then eventsLoop ctx begin_d end_d rest st
    else
      match ctx.net.dart_events corp begin_d end_d with
      | .error e => { st with err := some e }
      | .ok events =>
        let u := events.foldl
          (fun (acc : Conn × Nat) ev =>
            (upsert_event acc.1 ctx.run_id (some sym.stock_code) ev ctx.nowStr, acc.2 + 1))
          (st.conn, st.row.event_rows)
        eventsLoop ctx begin_d end_d rest
          { st with conn := u.1, row := { st.row with event_rows := u.2 } }

def eventsStage (ctx : StageCtx) (st : IngestState) : IngestState :=
  if ctx.dart_key = "" then
    { st with notes := st.notes ++ ["events skipped: DART_API_KEY not provided"] }
  else
    let end_d := (to_yyyymmdd ctx.args.as_of_to).getD (formatYYYYMMDD ctx.todayD)
    let begin_d := (to_yyyymmdd ctx.args.as_of_from).getD (formatYYYYMMDD (dateSubDays ctx.todayD 30))
    commitUnlessErr (eventsLoop ctx begin_d end_d ctx.symbols st)

def marginsLoop (ctx : StageCtx) (as_of : String) :
    List MarginRow → IngestState → Nat → Nat → IngestState × Nat × Nat
  | [], st, collected, failed => (st, collected, failed)
  | item :: rest, st, collected, failed =>
    match normalize_symbol (pyStrip item.symbol) with
    | none => marginsLoop ctx as_of rest st collected failed
    | some stock_code =>
      let status_text := pyOrString (pyLower (pyStrip item.collection_status)) "collected"
      let (collected, failed) :=
        if status_text = "collected" then (collected + 1, failed) else (collected, failed + 1)
      let conn := upsert_margin_policy st.conn ctx.run_id stock_code as_of
        item.is_full_margin item.margin_rate_pct status_text
        (if pyStrip item.message = "" then none else some (pyStrip item.message)) ctx.nowStr
      let row := { st.row with margin_rows := st.row.margin_rows + 1 }
      marginsLoop ctx as_of rest { st with conn := conn, row := row } collected failed

def marginsStage (ctx : StageCtx) (st : IngestState) : IngestState :=
  if ¬(ctx.args.source_profile ∈ ["all", "kis"]) then
    { st with notes := st.notes ++ ["margins skipped: source_profile does not include kis"] }
  else if ¬ctx.kis_present then
    { st with notes := st.notes ++ ["margins skipped: KIS_APP_KEY/KIS_APP_SECRET not provided"] }
  else
    let as_of := ((to_iso_date ctx.args.as_of_to).orElse
      (fun _ => to_iso_date ctx.args.as_of)).getD (isoFormat ctx.todayD)
    let margin_rows := fetch_margin_rows ctx.net.margin_psbl_order ctx.net.margin_intgr
      (pyStrip ctx.args.kis_account_no) (ctx.symbols.map SymbolEntry.stock_code)
    let out := marginsLoop ctx as_of margin_rows st 0 0
    let st := out.1
    let note := "margins: collected=" ++ toString out.2.1 ++ ", failed=" ++ toString out.2.2
    { st with conn := st.conn.commit, notes := st.notes ++ [note] }

/-- Run stage `f` for category `cat` only when the category is enabled and no
earlier stage raised (an exception aborts all remaining categories). -/
def runStage (cat : String) (categories : List String) (f : IngestState → IngestState)
    (st : IngestState) : IngestState :=
  if st.err.isSome then st
  else if cat ∈ categories then f st
  else st

/-- The fixed category order of the try-block of `run_ingest`. -/
def stagePipeline (ctx : StageCtx) (categories : List String) (st : IngestState) : IngestState :=
  let st := runStage "symbols" categories (symbolsStage ctx) st
  let st := runStage "prices" categories (pricesStage ctx) st
  let st := runStage "financials" categories (financialsStage ctx) st
  let st := runStage "events" categories (eventsStage ctx) st
  runStage "margins" categories (marginsStage ctx) st

/-- The outcome of `run_ingest`: exit code, terminal status, error message,
final durable store, final run row and notes. -/
structure RunResult where
  exit_code : Nat
  status : String
  error_message : Option String
  store : Store
  row : RunRow
  notes : List String
  deriving DecidableEq, Repr

/-- The initial `row` dict of `run_ingest`. -/
def initialRunRow (args : Args) (run_id started_at : String) : RunRow :=
  { run_id := run_id, started_at := started_at, finished_at := none, status := "running",
    command := "run", run_type := args.run_type, scope := args.scope,
    source_profile := args.source_profile, prices_window := args.prices_window,
    prices_lookback_days := args.prices_lookback_days,
    prices_backfill := if args.prices_backfill then 1 else 0,
    symbols_count := 0, processed_symbols := 0, symbol_rows := 0, price_rows := 0,
    fundamental_rows := 0, event_rows := 0, margin_rows := 0,
    notes_json := [], error_message := none }

/-- The epilogue of `run_ingest`: set terminal status, record the error note,
write the final run row and commit (which also makes durable any writes left
pending by an aborted stage). -/
def finalizeRun (conn : Conn) (row : RunRow) (notes : List String) (err : Option String)
    (nowStr : String) : RunResult :=
  let status := if err.isSome then "failed" else "success"
  let notes :=
    match err with
    | some e => notes ++ ["error: " ++ e]
    | none => notes
  let row :=
    { row with
      status := status
      finished_at := some nowStr
      notes_json := notes
      error_message := err }
  let conn := (upsert_run conn row).commit
  { exit_code := if status = "success" then 0 else 1, status := status,
    error_message := err, store := conn.committed, row := row, notes := notes }

/-- The connection state after `run_ingest`'s initial run-row insert and commit. -/
def initialConn (args : Args) (store0 : Store) (run_id started_at : String) : Conn :=
  (upsert_run (connectStore store0) (initialRunRow args run_id started_at)).commit

/-- The stage context `run_ingest` builds from the credentials returned by
`ensure_exported_env` (`kis_client` exists iff both KIS keys are truthy). -/
def ingestCtx (args : Args) (net : NetOracles) (kis_key kis_secret dart_key : String)
    (run_id nowStr : String) (todayD : GDate) (symbols : List SymbolEntry) : StageCtx :=
  { args := args
    net := net
    kis_present := kis_key ≠ "" && kis_secret ≠ ""
    dart_key := dart_key
    run_id := run_id
    nowStr := nowStr
    todayD := todayD
    symbols := symbols }

/-- The try-block state just before the category stages run: initial commit
done, symbols resolved, `symbols_count` recorded. -/
def initialIngestState (args : Args) (store0 : Store) (run_id started_at : String)
    (symbols : List SymbolEntry) (notes1 : List String) : IngestState :=
  { conn := initialConn args store0 run_id started_at
    row := { initialRunRow args run_id started_at with symbols_count := symbols.length }
    notes := notes1
    err := none }

/-- `run_ingest`. `store0` is the database contents at connect time; `run_id`,
`started_at`, `nowStr` and `todayD` stand for the generated UUID and the
wall-clock reads. Exit code 3 is the `SetupError` return before any database
write. -/
def run_ingest (args : Args) (net : NetOracles) (store0 : Store)
    (run_id started_at nowStr : String) (todayD : GDate) : RunResult :=
  match ensure_exported_env args with
  | .error msg =>
    { exit_code := 3, status := "setup_required", error_message := some msg,
      store := store0, row := initialRunRow args run_id started_at, notes := [] }
  | .ok (kis_key, kis_secret, dart_key) =>
    let row0 := initialRunRow args run_id started_at
    let conn := initialConn args store0 run_id started_at
    if args.dry_run then
      let row1 :=
        { row0 with
          finished_at := some nowStr
          status := "success"
          notes_json := ["dry-run"] }
      let conn := (upsert_run conn row1).commit
      { exit_code := 0, status := "success", error_message := none,
        store := conn.committed, row := row1, notes := [] }
    else
      match RUN_TYPE_TO_CATEGORIES.lookup args.run_type with
      | none =>
        finalizeRun conn row0 [] (some ("'" ++ args.run_type ++ "'")) nowStr
      | some categories =>
        match resolve_symbols conn args [] dart_key net.dart_corp_codes with
        | .error (e, notesE) => finalizeRun conn row0 notesE (some e) nowStr
        | .ok (symbols, notes1) =>
          let ctx := ingestCtx args net kis_key kis_secret dart_key run_id nowStr todayD symbols
          let st := stagePipeline ctx categories
            (initialIngestState args store0 run_id started_at symbols notes1)
          finalizeRun st.conn st.row st.notes st.err nowStr

/-- The pipeline state after the symbols and prices stages, for runs whose
credentials pass the preflight (so the stage context carries the `args`
credentials). Verification helper naming an intermediate state of
`run_ingest`. -/
def stAfterPrices (args : Args) (net : NetOracles) (store0 : Store)
    (run_id started_at nowStr : String) (todayD : GDate) (cats : List String)
    (symbols : List SymbolEntry) (notes1 : List String) : IngestState :=
  let ctx := ingestCtx args net args.kis_app_key args.kis_app_secret args.dart_api_key
    run_id nowStr todayD symbols
  runStage "prices" cats (pricesStage ctx)
    (runStage "symbols" cats (symbolsStage ctx)
      (initialIngestState args store0 run_id started_at symbols notes1))

/-- Batch upsert at the table level, with a per-record row constructor that may
skip (as `upsert_price` does for unparseable candle dates). Verification
helper relating the per-kind batches to `upsertByKey`. -/
def upsertStepO {α κ : Type} [DecidableEq κ] (key : α → κ) (merge : α → α → α)
    (t : List α) : Option α → List α
  | none => t
  | some a => upsertByKey key merge a t

def applyO {α κ ρ : Type} [DecidableEq κ] (key : α → κ) (merge : α → α → α)
    (mk : ρ → Option α) (rs : List ρ) (t : List α) : List α :=
  rs.foldl (fun t r => upsertStepO key merge t (mk r)) t

/-- One ingestion's worth of `upsert_symbol` calls (`nowf` gives each call's
`now_iso()` reading). -/
def symbolBatch (nowf : SymbolEntry → String) (es : List SymbolEntry) (c : Conn) : Conn :=
  es.foldl (fun c e => upsert_symbol c e (nowf e)) c

/-- One ingestion's worth of `upsert_price` calls. -/
def priceBatch (run_id : String) (as_of : Option String) (nowf : PriceRow → String)
    (ps : List PriceRow) (c : Conn) : Conn :=
  ps.foldl (fun c p => upsert_price c run_id p as_of (nowf p)) c

/-- One ingestion's worth of `upsert_fundamental` calls. -/
def fundBatch (run_id : String) (nowf : FundRow → String) (fs : List FundRow) (c : Conn) : Conn :=
  fs.foldl (fun c f => upsert_fundamental c run_id f (nowf f)) c

/-- One ingestion's worth of `upsert_event` calls (`scf` gives the owning
stock code passed alongside each event). -/
def eventBatch (run_id : String) (scf : EventRow → Option String) (nowf : EventRow → String)
    (evs : List EventRow) (c : Conn) : Conn :=
  evs.foldl (fun c ev => upsert_event c run_id (scf ev) ev (nowf ev)) c

/-- The per-record arguments of one `upsert_margin_policy` call (the shared
`run_id`/`as_of`/timestamp are batch-level). -/
structure MarginUpsertReq where
  stock_code : String
  is_full_margin : Bool
  margin_rate_pct : Option Rat
  collection_status : String
  source_note : Option String
  deriving DecidableEq, Repr

/-- One ingestion's worth of `upsert_margin_policy` calls. -/
def marginBatch (run_id as_of : String) (nowf : MarginUpsertReq → String)
    (ms : List MarginUpsertReq) (c : Conn) : Conn :=
  ms.foldl
    (fun c m => upsert_margin_policy c run_id m.stock_code as_of m.is_full_margin
      m.margin_rate_pct m.collection_status m.source_note (nowf m))
    c

/-- A provider oracle whose every endpoint answers with an empty success. -/
def cNetOk : NetOracles :=
  { stock_info := fun _ => .ok {}
    price_page := fun _ _ _ _ => .ok { rt_cd := "0" }
    fundamentals := fun _ => .ok []
    margin_psbl_order := fun _ => .ok {}
    margin_intgr := fun _ => .ok {}
    dart_corp_codes := .ok []
    dart_events := fun _ _ _ => .ok [] }

/-- Concrete chart-price provider: the first page (upper bound `20240110`)
holds candles `20240101` and `20240110` in ascending order, every further
page is empty. Its first page's minimum candle date is `20240101`. -/
def cxPageC1 (_sym _tf _fd current_to : String) : Except String KisResponse :=
  if current_to = "20240110" then
    .ok { rt_cd := "0",
          output2 := some [{ stck_bsop_date := "20240101" }, { stck_bsop_date := "20240110" }] }
  else .ok { rt_cd := "0", output2 := some [] }

/-- Concrete chart-price provider: the first page (upper bound `20240110`)
holds candles `20240105` and `20240110` in ascending order, every further
page is empty. Its first page's minimum candle date is `20240105`. -/
def cxPageC2 (_sym _tf _fd current_to : String) : Except String KisResponse :=
  if current_to = "20240110" then
    .ok { rt_cd := "0",
          output2 := some [{ stck_bsop_date := "20240105" }, { stck_bsop_date := "20240110" }] }
  else .ok { rt_cd := "0", output2 := some [] }

/-- Provider for the mixed-parseability price run: one page whose candle dates
are `20240104` (normalizable) and `abc1` (not), then empty pages. -/
def cNetMixedDates : NetOracles :=
  { cNetOk with
    price_page := fun _ _ _ current_to =>
      if current_to = "20240110" then
        .ok { rt_cd := "0",
              output2 := some [{ stck_bsop_date := "20240104" }, { stck_bsop_date := "abc1" }] }
      else .ok { rt_cd := "0", output2 := some [] } }

/-- A `prices`-only single-symbol run configuration with KIS credentials. -/
def cArgsPrices : Args :=
  { run_type := "prices", scope := "single", symbol := ["005930"],
    kis_app_key := "k", kis_app_secret := "s" }

/-- Provider whose prices page has one good candle and whose fundamentals
endpoint raises. -/
def cNetFundBoom : NetOracles :=
  { cNetOk with
    price_page := fun _ _ _ current_to =>
      if current_to = "20240110" then
        .ok { rt_cd := "0", output2 := some [{ stck_bsop_date := "20240104" }] }
      else .ok { rt_cd := "0", output2 := some [] }
    fundamentals := fun _ => .error "boom" }

/-- A full (`all` run-type) single-symbol run configuration with all
credentials present. -/
def cArgsAll : Args :=
  { run_type := "all", scope := "single", symbol := ["005930"],
    kis_app_key := "k", kis_app_secret := "s", kis_account_no := "1234567890",
    dart_api_key := "d" }

/-- An `all`-scope, non-dry run configuration with no DART credential. -/
def cArgsAllScopeNoDart : Args :=
  { run_type := "symbols", scope := "all", dry_run := false }

/-- A store whose `symbol_universe` already holds one entry. -/
def cStoreOneSymbol : Store :=
  { symbol_universe :=
      [{ stock_code := "005930", name := some "Samsung", market := some "KOSPI",
         sector := none, dart_corp_code := none, listed_date := some "1975-06-11",
         is_active := 1, is_delisted := 0, updated_at := "t0" }] }

/-- Order-feasibility oracle that always succeeds (margin scenarios). -/
def cMarginCall1 (_s : String) : Except String PsblOrderResp := .ok {}

/-- The rational 99.9 (in lowest terms, so that kernel evaluation never has
to normalize a fraction). -/
def ratNinetyNinePointNine : Rat := ⟨999, 10, by norm_num, by norm_num⟩

/-- Integrated-margin oracle: rate 100 for `000001`, rate 99.9 for `000002`,
no rate for `000003`. -/
def cMarginCall2 (s : String) : Except String IntgrMarginResp :=
  if s = "000001" then .ok { rt_cd := "0", acmga_rt := some 100 }
  else if s = "000002" then .ok { rt_cd := "0", acmga_rt := some ratNinetyNinePointNine }
  else .ok { rt_cd := "0", acmga_rt := none }

/-! ## Lemmas about the keyed upsert and batch application -/

theorem upsertByKey_map_key {α κ : Type} [DecidableEq κ] (key : α → κ) (merge : α → α → α)
    (hm : ∀ a b, key (merge a b) = key a) (new : α) (t : List α) :
    (upsertByKey key merge new t).map key =
      if key new ∈ t.map key then t.map key else t.map key ++ [key new] := by
  induction t with
  | nil => simp [upsertByKey]
  | cons r rs ih =>
    by_cases h : key r = key new
    · simp [upsertByKey, h, hm]
    · have h' : ¬key new = key r := fun hh => h hh.symm
      simp only [upsertByKey, if_neg h, List.map_cons, List.mem_cons, ih]
      by_cases hmem : key new ∈ rs.map key
      · simp [hmem, h']
      · simp [hmem, h']

theorem upsertByKey_length {α κ : Type} [DecidableEq κ] (key : α → κ) (merge : α → α → α)
    (hm : ∀ a b, key (merge a b) = key a) (new : α) (t : List α) :
    (upsertByKey key merge new t).length =
      if key new ∈ t.map key then t.length else t.length + 1 := by
  have h := congrArg List.length (upsertByKey_map_key key merge hm new t)
  simp only [List.length_map] at h
  rw [h]
  by_cases hmem : key new ∈ t.map key <;> simp [hmem]

theorem applyO_cons {α κ ρ : Type} [DecidableEq κ] (key : α → κ) (merge : α → α → α)
    (mk : ρ → Option α) (r : ρ) (rs : List ρ) (t : List α) :
    applyO key merge mk (r :: rs) t =
      applyO key merge mk rs (upsertStepO key merge t (mk r)) := rfl

theorem applyO_map_key_mono {α κ ρ : Type} [DecidableEq κ] (key : α → κ)
    (merge : α → α → α) (hm : ∀ a b, key (merge a b) = key a) (mk : ρ → Option α)
    (rs : List ρ) : ∀ (t : List α) (k : κ), k ∈ t.map key →
      k ∈ (applyO key merge mk rs t).map key := by
  induction rs with
  | nil => intro t k hk; simpa [applyO] using hk
  | cons r rs ih =>
    intro t k hk
    show k ∈ (applyO key merge mk rs _).map key
    cases hmk : mk r with
    | none =>
      simp only [applyO, List.foldl_cons, hmk, upsertStepO]
      exact ih t k hk
    | some a =>
      simp only [applyO, List.foldl_cons, hmk, upsertStepO]
      apply ih
      rw [upsertByKey_map_key key merge hm]
      by_cases hmem : key a ∈ t.map key
      · simpa [hmem] using hk
      · simp only [if_neg hmem, List.mem_append]
        exact Or.inl hk

theorem applyO_key_present {α κ ρ : Type} [DecidableEq κ] (key : α → κ)
    (merge : α → α → α) (hm : ∀ a b, key (merge a b) = key a) (mk : ρ → Option α)
    (rs : List ρ) : ∀ (t : List α) (r : ρ) (a : α), r ∈ rs → mk r = some a →
      key a ∈ (applyO key merge mk rs t).map key := by
  induction rs with
  | nil => intro t r a hr; exact absurd hr (List.not_mem_nil r)
  | cons r0 rs ih =>
    intro t r a hr hmk
    rcases List.mem_cons.mp hr with h | h
    · subst h
      simp only [applyO, List.foldl_cons, hmk, upsertStepO]
      apply applyO_map_key_mono key merge hm mk rs
      rw [upsertByKey_map_key key merge hm]
      by_cases hmem : key a ∈ t.map key
      · simp [hmem]
      · simp [hmem]
    · cases hmk0 : mk r0 with
      | none =>
        simp only [applyO, List.foldl_cons, hmk0, upsertStepO]
        exact ih t r a h hmk
      | some a0 =>
        simp only [applyO, List.foldl_cons, hmk0, upsertStepO]
        exact ih _ r a h hmk

theorem applyO_length_stable {α κ ρ : Type} [DecidableEq κ] (key : α → κ)
    (merge : α → α → α) (hm : ∀ a b, key (merge a b) = key a) (mk : ρ → Option α)
    (rs : List ρ) : ∀ (t : List α),
      (∀ r ∈ rs, ∀ a, mk r = some a → key a ∈ t.map key) →
      (applyO key merge mk rs t).length = t.length := by
  induction rs with
  | nil => intro t _; simp [applyO]
  | cons r0 rs ih =>
    intro t h
    cases hmk : mk r0 with
    | none =>
      simp only [applyO, List.foldl_cons, hmk, upsertStepO]
      exact ih t (fun r hr a ha => h r (List.mem_cons_of_mem r0 hr) a ha)
    | some a =>
      have hmem : key a ∈ t.map key := h r0 (List.mem_cons_self r0 rs) a hmk
      have hkeys : (upsertByKey key merge a t).map key = t.map key := by
        rw [upsertByKey_map_key key merge hm, if_pos hmem]
      have hlen : (upsertByKey key merge a t).length = t.length := by
        rw [upsertByKey_length key merge hm, if_pos hmem]
      rw [applyO_cons, hmk]
      show (applyO key merge mk rs (upsertByKey key merge a t)).length = t.length
      rw [ih (upsertByKey key merge a t)
        (fun r hr a' ha' => by
          rw [hkeys]
          exact h r (List.mem_cons_of_mem r0 hr) a' ha')]
      exact hlen

theorem applyO_twice_length {α κ ρ : Type} [DecidableEq κ] (key : α → κ)
    (merge : α → α → α) (hm : ∀ a b, key (merge a b) = key a) (mk1 mk2 : ρ → Option α)
    (hk : ∀ r, (mk1 r).map key = (mk2 r).map key) (rs : List ρ) (t : List α) :
    (applyO key merge mk2 rs (applyO key merge mk1 rs t)).length =
      (applyO key merge mk1 rs t).length := by
  apply applyO_length_stable key merge hm mk2 rs
  intro r hr a ha2
  have hkr := hk r
  rw [ha2] at hkr
  cases hmk1 : mk1 r with
  | none => rw [hmk1] at hkr; simp at hkr
  | some a1 =>
    rw [hmk1] at hkr
    have h2 : key a1 = key a := by simpa using hkr
    rw [← h2]
    exact applyO_key_present key merge hm mk1 rs t r a1 hr hmk1

/-! ### Each conflict-resolution merge preserves its table's natural key -/

theorem symbolMerge_key (a b : SymbolRow) : (symbolMerge a b).stock_code = a.stock_code := rfl

theorem priceMerge_key (a b : PriceDbRow) : priceKey (priceMerge a b) = priceKey a := rfl

theorem fundMerge_key (a b : FundDbRow) : fundKey (fundMerge a b) = fundKey a := rfl

theorem eventMerge_key (a b : EventDbRow) : eventKey (eventMerge a b) = eventKey a := rfl

theorem marginMerge_key (a b : MarginDbRow) : marginKey (marginMerge a b) = marginKey a := rfl

/-! ### The per-kind batches seen at their table -/

theorem upsert_price_table (c : Conn) (run_id : String) (p : PriceRow)
    (as_of : Option String) (now : String) :
    (upsert_price c run_id p as_of now).pending.raw_price_ohlcv =
      upsertStepO priceKey priceMerge c.pending.raw_price_ohlcv
        (mkPriceDbRow run_id p as_of now) := by
  unfold upsert_price
  cases mkPriceDbRow run_id p as_of now <;> rfl

theorem symbolBatch_table (nowf : SymbolEntry → String) (es : List SymbolEntry) :
    ∀ c : Conn, (symbolBatch nowf es c).pending.symbol_universe =
      applyO SymbolRow.stock_code symbolMerge (fun e => some (symbolInsertRow e (nowf e)))
        es c.pending.symbol_universe := by
  induction es with
  | nil => intro c; rfl
  | cons e es ih =>
    intro c
    show (symbolBatch nowf es (upsert_symbol c e (nowf e))).pending.symbol_universe = _
    rw [ih]
    rfl

theorem priceBatch_table (run_id : String) (as_of : Option String) (nowf : PriceRow → String)
    (ps : List PriceRow) : ∀ c : Conn,
    (priceBatch run_id as_of nowf ps c).pending.raw_price_ohlcv =
      applyO priceKey priceMerge (fun p => mkPriceDbRow run_id p as_of (nowf p))
        ps c.pending.raw_price_ohlcv := by
  induction ps with
  | nil => intro c; rfl
  | cons p ps ih =>
    intro c
    show (priceBatch run_id as_of nowf ps (upsert_price c run_id p as_of (nowf p))).pending.raw_price_ohlcv = _
    rw [ih, upsert_price_table]
    rfl

theorem fundBatch_table (run_id : String) (nowf : FundRow → String) (fs : List FundRow) :
    ∀ c : Conn, (fundBatch run_id nowf fs c).pending.raw_fundamental_statement =
      applyO fundKey fundMerge (fun f => some (mkFundDbRow run_id f (nowf f)))
        fs c.pending.raw_fundamental_statement := by
  induction fs with
  | nil => intro c; rfl
  | cons f fs ih =>
    intro c
    show (fundBatch run_id nowf fs (upsert_fundamental c run_id f (nowf f))).pending.raw_fundamental_statement = _
    rw [ih]
    rfl

theorem eventBatch_table (run_id : String) (scf : EventRow → Option String)
    (nowf : EventRow → String) (evs : List EventRow) : ∀ c : Conn,
    (eventBatch run_id scf nowf evs c).pending.raw_event_feed =
      applyO eventKey eventMerge (fun ev => some (mkEventDbRow run_id (scf ev) ev (nowf ev)))
        evs c.pending.raw_event_feed := by
  induction evs with
  | nil => intro c; rfl
  | cons ev evs ih =>
    intro c
    show (eventBatch run_id scf nowf evs (upsert_event c run_id (scf ev) ev (nowf ev))).pending.raw_event_feed = _
    rw [ih]
    rfl

theorem marginBatch_table (run_id as_of : String) (nowf : MarginUpsertReq → String)
    (ms : List MarginUpsertReq) : ∀ c : Conn,
    (marginBatch run_id as_of nowf ms c).pending.symbol_margin_policy =
      applyO marginKey marginMerge
        (fun m => some (mkMarginDbRow run_id m.stock_code as_of m.is_full_margin
          m.margin_rate_pct m.collection_status m.source_note (nowf m)))
        ms c.pending.symbol_margin_policy := by
  induction ms with
  | nil => intro c; rfl
  | cons m ms ih =>
    intro c
    show (marginBatch run_id as_of nowf ms _).pending.symbol_margin_policy = _
    rw [ih]
    rfl

/-- The natural key of the row `upsert_price` builds does not depend on the
run identifier, the as-of date or the timestamp. -/
theorem mkPriceDbRow_key (r1 r2 : String) (p : PriceRow) (a1 a2 : Option String)
    (n1 n2 : String) :
    (mkPriceDbRow r1 p a1 n1).map priceKey = (mkPriceDbRow r2 p a2 n2).map priceKey := by
  unfold mkPriceDbRow
  cases to_iso_date (some p.candle_at) <;> rfl

/-! ## C5 -/

/-- C5: re-running the same ingestion (the same record sequence, under fresh
run identifiers, as-of dates and timestamps) leaves every table's row count
unchanged, and a single upsert whose natural key is already present never adds
a row — for all five entity kinds (symbol universe, price candles,
fundamental items, events, margin policy). -/
theorem claim_C5 :
    (∀ (n1 n2 : SymbolEntry → String) (es : List SymbolEntry) (c : Conn),
      ((symbolBatch n2 es (symbolBatch n1 es c)).pending.symbol_universe).length =
        ((symbolBatch n1 es c).pending.symbol_universe).length) ∧
    (∀ (c : Conn) (e : SymbolEntry) (now : String),
      e.stock_code ∈ c.pending.symbol_universe.map SymbolRow.stock_code →
      ((upsert_symbol c e now).pending.symbol_universe).length =
        (c.pending.symbol_universe).length) ∧
    (∀ (r1 r2 : String) (a1 a2 : Option String) (n1 n2 : PriceRow → String)
        (ps : List PriceRow) (c : Conn),
      ((priceBatch r2 a2 n2 ps (priceBatch r1 a1 n1 ps c)).pending.raw_price_ohlcv).length =
        ((priceBatch r1 a1 n1 ps c).pending.raw_price_ohlcv).length) ∧
    (∀ (c : Conn) (rid : String) (p : PriceRow) (asof : Option String) (now : String)
        (dbr : PriceDbRow),
      mkPriceDbRow rid p asof now = some dbr →
      priceKey dbr ∈ c.pending.raw_price_ohlcv.map priceKey →
      ((upsert_price c rid p asof now).pending.raw_price_ohlcv).length =
        (c.pending.raw_price_ohlcv).length) ∧
    (∀ (r1 r2 : String) (n1 n2 : FundRow → String) (fs : List FundRow) (c : Conn),
      ((fundBatch r2 n2 fs (fundBatch r1 n1 fs c)).pending.raw_fundamental_statement).length =
        ((fundBatch r1 n1 fs c).pending.raw_fundamental_statement).length) ∧
    (∀ (c : Conn) (rid : String) (f : FundRow) (now : String),
      fundKey (mkFundDbRow rid f now) ∈ c.pending.raw_fundamental_statement.map fundKey →
      ((upsert_fundamental c rid f now).pending.raw_fundamental_statement).length =
        (c.pending.raw_fundamental_statement).length) ∧
    (∀ (r1 r2 : String) (sc1 sc2 : EventRow → Option String) (n1 n2 : EventRow → String)
        (evs : List EventRow) (c : Conn),
      ((eventBatch r2 sc2 n2 evs (eventBatch r1 sc1 n1 evs c)).pending.raw_event_feed).length =
        ((eventBatch r1 sc1 n1 evs c).pending.raw_event_feed).length) ∧
    (∀ (c : Conn) (rid : String) (sc : Option String) (ev : EventRow) (now : String),
      eventKey (mkEventDbRow rid sc ev now) ∈ c.pending.raw_event_feed.map eventKey →
      ((upsert_event c rid sc ev now).pending.raw_event_feed).length =
        (c.pending.raw_event_feed).length) ∧
    (∀ (r1 r2 as_of : String) (n1 n2 : MarginUpsertReq → String)
        (ms : List MarginUpsertReq) (c : Conn),
      ((marginBatch r2 as_of n2 ms (marginBatch r1 as_of n1 ms c)).pending.symbol_margin_policy).length =
        ((marginBatch r1 as_of n1 ms c).pending.symbol_margin_policy).length) ∧
    (∀ (c : Conn) (rid sc as_of : String) (ifm : Bool) (mr : Option Rat) (cs : String)
        (sn : Option String) (now : String),
      (sc, as_of) ∈ c.pending.symbol_margin_policy.map marginKey →
      ((upsert_margin_policy c rid sc as_of ifm mr cs sn now).pending.symbol_margin_policy).length =
        (c.pending.symbol_margin_policy).length) := by
  refine ⟨?_, ?_, ?_, ?_, ?_, ?_, ?_, ?_, ?_, ?_⟩
  · intro n1 n2 es c
    simp only [symbolBatch_table]
    exact applyO_twice_length SymbolRow.stock_code symbolMerge symbolMerge_key
      (fun e => some (symbolInsertRow e (n1 e))) (fun e => some (symbolInsertRow e (n2 e)))
      (fun e => rfl) es c.pending.symbol_universe
  · intro c e now hmem
    show (upsertByKey SymbolRow.stock_code symbolMerge (symbolInsertRow e now)
      c.pending.symbol_universe).length = _
    rw [upsertByKey_length SymbolRow.stock_code symbolMerge symbolMerge_key]
    exact if_pos hmem
  · intro r1 r2 a1 a2 n1 n2 ps c
    simp only [priceBatch_table]
    exact applyO_twice_length priceKey priceMerge priceMerge_key _ _
      (fun p => mkPriceDbRow_key r1 r2 p a1 a2 (n1 p) (n2 p)) ps c.pending.raw_price_ohlcv
  · intro c rid p asof now dbr hmk hmem
    rw [upsert_price_table, hmk]
    show (upsertByKey priceKey priceMerge dbr c.pending.raw_price_ohlcv).length = _
    rw [upsertByKey_length priceKey priceMerge priceMerge_key]
    exact if_pos hmem
  · intro r1 r2 n1 n2 fs c
    simp only [fundBatch_table]
    exact applyO_twice_length fundKey fundMerge fundMerge_key
      (fun f => some (mkFundDbRow r1 f (n1 f))) (fun f => some (mkFundDbRow r2 f (n2 f)))
      (fun f => rfl) fs c.pending.raw_fundamental_statement
  · intro c rid f now hmem
    show (upsertByKey fundKey fundMerge (mkFundDbRow rid f now)
      c.pending.raw_fundamental_statement).length = _
    rw [upsertByKey_length fundKey fundMerge fundMerge_key]
    exact if_pos hmem
  · intro r1 r2 sc1 sc2 n1 n2 evs c
    simp only [eventBatch_table]
    exact applyO_twice_length eventKey eventMerge eventMerge_key
      (fun ev => some (mkEventDbRow r1 (sc1 ev) ev (n1 ev)))
      (fun ev => some (mkEventDbRow r2 (sc2 ev) ev (n2 ev)))
      (fun ev => rfl) evs c.pending.raw_event_feed
  · intro c rid sc ev now hmem
    show (upsertByKey eventKey eventMerge (mkEventDbRow rid sc ev now)
      c.pending.raw_event_feed).length = _
    rw [upsertByKey_length eventKey eventMerge eventMerge_key]
    exact if_pos hmem
  · intro r1 r2 as_of n1 n2 ms c
    simp only [marginBatch_table]
    exact applyO_twice_length marginKey marginMerge marginMerge_key
      (fun (m : MarginUpsertReq) => some (mkMarginDbRow r1 m.stock_code as_of m.is_full_margin
        m.margin_rate_pct m.collection_status m.source_note (n1 m)))
      (fun (m : MarginUpsertReq) => some (mkMarginDbRow r2 m.stock_code as_of m.is_full_margin
        m.margin_rate_pct m.collection_status m.source_note (n2 m)))
      (fun m => rfl) ms c.pending.symbol_margin_policy
  · intro c rid sc as_of ifm mr cs sn now hmem
    show (upsertByKey marginKey marginMerge
      (mkMarginDbRow rid sc as_of ifm mr cs sn now) c.pending.symbol_margin_policy).length = _
    rw [upsertByKey_length marginKey marginMerge marginMerge_key]
    exact if_pos hmem

/-- Witness for C5 at a concrete input: upserting a symbol entry whose stock
code is already a key of the persisted `symbol_universe` keeps the row count
at 1. -/
theorem claim_C5_witness :
    "005930" ∈ (connectStore cStoreOneSymbol).pending.symbol_universe.map SymbolRow.stock_code ∧
    ((upsert_symbol (connectStore cStoreOneSymbol)
        { stock_code := "005930" } "t1").pending.symbol_universe).length =
      ((connectStore cStoreOneSymbol).pending.symbol_universe).length :=
  ⟨by decide, claim_C5.2.1 (connectStore cStoreOneSymbol) { stock_code := "005930" } "t1" (by decide)⟩

/-! ## C7 -/

theorem upsertByKey_split {α κ : Type} [DecidableEq κ] (key : α → κ) (merge : α → α → α)
    (new : α) (pre post : List α) (r0 : α)
    (hpre : ∀ r ∈ pre, key r ≠ key new) (hr0 : key r0 = key new) :
    upsertByKey key merge new (pre ++ r0 :: post) = pre ++ merge r0 new :: post := by
  induction pre with
  | nil => simp [upsertByKey, hr0]
  | cons r pre ih =>
    have hne : key r ≠ key new := hpre r (List.mem_cons_self r pre)
    simp only [List.cons_append, upsertByKey, if_neg hne]
    exact congrArg (List.cons r) (ih (fun r hr => hpre r (List.mem_cons_of_mem _ hr)))

/-- C7: re-upserting a `SymbolEntry` whose stock code matches an existing row
updates that row in place; `name`, `market` and `dart_corp_code` are replaced
exactly when the incoming value is non-null and kept otherwise; `listed_date`
is kept when the incoming value is null (and replaced with the normalized date
when the incoming value normalizes); `updated_at` always takes the new
timestamp; the key and the columns outside the update list (`sector`,
`is_active`, `is_delisted`) are untouched. -/
theorem claim_C7 (c : Conn) (e : SymbolEntry) (now : String)
    (pre post : List SymbolRow) (r0 : SymbolRow)
    (hsplit : c.pending.symbol_universe = pre ++ r0 :: post)
    (hpre : ∀ r ∈ pre, r.stock_code ≠ e.stock_code)
    (hr0 : r0.stock_code = e.stock_code) :
    (upsert_symbol c e now).pending.symbol_universe =
      pre ++ symbolMerge r0 (symbolInsertRow e now) :: post ∧
    (e.name = none → (symbolMerge r0 (symbolInsertRow e now)).name = r0.name) ∧
    (∀ v, e.name = some v → (symbolMerge r0 (symbolInsertRow e now)).name = some v) ∧
    (e.market = none → (symbolMerge r0 (symbolInsertRow e now)).market = r0.market) ∧
    (∀ v, e.market = some v → (symbolMerge r0 (symbolInsertRow e now)).market = some v) ∧
    (e.dart_corp_code = none →
      (symbolMerge r0 (symbolInsertRow e now)).dart_corp_code = r0.dart_corp_code) ∧
    (∀ v, e.dart_corp_code = some v →
      (symbolMerge r0 (symbolInsertRow e now)).dart_corp_code = some v) ∧
    (e.listed_date = none →
      (symbolMerge r0 (symbolInsertRow e now)).listed_date = r0.listed_date) ∧
    (∀ v, to_iso_date e.listed_date = some v →
      (symbolMerge r0 (symbolInsertRow e now)).listed_date = some v) ∧
    (symbolMerge r0 (symbolInsertRow e now)).updated_at = now ∧
    (symbolMerge r0 (symbolInsertRow e now)).stock_code = r0.stock_code ∧
    (symbolMerge r0 (symbolInsertRow e now)).sector = r0.sector ∧
    (symbolMerge r0 (symbolInsertRow e now)).is_active = r0.is_active ∧
    (symbolMerge r0 (symbolInsertRow e now)).is_delisted = r0.is_delisted := by
  refine ⟨?_, ?_, ?_, ?_, ?_, ?_, ?_, ?_, ?_, rfl, rfl, rfl, rfl, rfl⟩
  · show upsertByKey SymbolRow.stock_code symbolMerge (symbolInsertRow e now)
      c.pending.symbol_universe = _
    rw [hsplit]
    exact upsertByKey_split SymbolRow.stock_code symbolMerge (symbolInsertRow e now)
      pre post r0 (fun r hr => by simpa [symbolInsertRow] using hpre r hr)
      (by simpa [symbolInsertRow] using hr0)
  · intro h; simp [symbolMerge, symbolInsertRow, h]
  · intro v h; simp [symbolMerge, symbolInsertRow, h]
  · intro h; simp [symbolMerge, symbolInsertRow, h]
  · intro v h; simp [symbolMerge, symbolInsertRow, h]
  · intro h; simp [symbolMerge, symbolInsertRow, h]
  · intro v h; simp [symbolMerge, symbolInsertRow, h]
  · intro h; simp [symbolMerge, symbolInsertRow, h, to_iso_date, to_yyyymmdd]
  · intro v h; simp [symbolMerge, symbolInsertRow, h]

/-- Witness for C7 at a concrete input: upserting `name = None` after a prior
upsert with `name = "Samsung"` leaves the stored name `"Samsung"`. -/
theorem claim_C7_witness :
    (upsert_symbol
        (upsert_symbol (connectStore {}) { stock_code := "005930", name := some "Samsung" } "t1")
        { stock_code := "005930" } "t2").pending.symbol_universe.map SymbolRow.name =
      [some "Samsung"] := by
  have h := claim_C7
    (upsert_symbol (connectStore {}) { stock_code := "005930", name := some "Samsung" } "t1")
    { stock_code := "005930" } "t2"
    [] [] (symbolInsertRow { stock_code := "005930", name := some "Samsung" } "t1")
    (by decide) (by intro r hr; exact absurd hr (List.not_mem_nil r)) (by decide)
  rw [h.1]
  simp only [List.nil_append, List.map_cons, List.map_nil]
  rw [h.2.1 rfl]
  decide

/-! ## C9 -/

theorem foldl_addSymbolIfNew_mem (rs : List String) :
    ∀ (out : List String) (s : String), s ∈ rs.foldl addSymbolIfNew out →
      s ∈ out ∨ ∃ raw, raw ∈ rs ∧ normalize_symbol raw = some s := by
  induction rs with
  | nil => intro out s h; exact Or.inl h
  | cons r rs ih =>
    intro out s h
    rcases ih (addSymbolIfNew out r) s h with h' | ⟨raw, hraw, hn⟩
    · cases hn : normalize_symbol r with
      | none =>
        simp only [addSymbolIfNew, hn] at h'
        exact Or.inl h'
      | some t =>
        simp only [addSymbolIfNew, hn] at h'
        by_cases ht : t ∈ out
        · rw [if_pos ht] at h'; exact Or.inl h'
        · rw [if_neg ht] at h'
          rcases List.mem_append.mp h' with h2 | h2
          · exact Or.inl h2
          · have hst : s = t := by simpa using h2
            exact Or.inr ⟨r, List.mem_cons_self r rs, by rw [hn, hst]⟩
    · exact Or.inr ⟨raw, List.mem_cons_of_mem _ hraw, hn⟩

theorem foldl_tokens_mem (ts : List String) :
    ∀ (out : List String) (s : String),
      s ∈ ts.foldl
        (fun out token =>
          let token := pyStrip token
          if token = "" then out else addSymbolIfNew out token)
        out →
      s ∈ out ∨ ∃ raw, raw ∈ ts.map pyStrip ∧ normalize_symbol raw = some s := by
  induction ts with
  | nil => intro out s h; exact Or.inl h
  | cons t ts ih =>
    intro out s h
    rcases ih _ s h with h' | ⟨raw, hraw, hn⟩
    · change s ∈ (if pyStrip t = "" then out else addSymbolIfNew out (pyStrip t)) at h'
      by_cases he : pyStrip t = ""
      · rw [if_pos he] at h'; exact Or.inl h'
      · rw [if_neg he] at h'
        cases hn : normalize_symbol (pyStrip t) with
        | none =>
          simp only [addSymbolIfNew, hn] at h'
          exact Or.inl h'
        | some u =>
          simp only [addSymbolIfNew, hn] at h'
          by_cases hu : u ∈ out
          · rw [if_pos hu] at h'; exact Or.inl h'
          · rw [if_neg hu] at h'
            rcases List.mem_append.mp h' with h2 | h2
            · exact Or.inl h2
            · have hst : s = u := by simpa using h2
              exact Or.inr ⟨pyStrip t, List.mem_cons_self (pyStrip t) _, by rw [hn, hst]⟩
    · exact Or.inr ⟨raw, List.mem_cons_of_mem _ hraw, hn⟩

/-- C9: `normalize_symbol` keeps exactly the digit characters of the stripped
input, rejects when that digit string is empty or longer than six characters,
and otherwise left-pads with zeros to width six; the four spec examples hold;
and every symbol `parse_symbols` emits is the successful normalization of some
input item or comma token — non-normalizable input is dropped, never an
error. -/
theorem claim_C9 :
    (∀ v : String,
      (pyStrip v).toList.filter Char.isDigit = [] ∨
        ((pyStrip v).toList.filter Char.isDigit).length > 6 →
      normalize_symbol v = none) ∧
    (∀ v : String, (pyStrip v).toList.filter Char.isDigit ≠ [] →
      ((pyStrip v).toList.filter Char.isDigit).length ≤ 6 →
      normalize_symbol v =
        some (String.mk (List.replicate (6 - ((pyStrip v).toList.filter Char.isDigit).length) '0' ++
          (pyStrip v).toList.filter Char.isDigit))) ∧
    normalize_symbol "005930" = some "005930" ∧
    normalize_symbol "5930" = some "005930" ∧
    normalize_symbol "12345678" = none ∧
    normalize_symbol "" = none ∧
    (∀ (args : Args) (s : String), s ∈ parse_symbols args →
      ∃ raw, (raw ∈ args.symbol ∨ raw ∈ (pySplit ',' args.symbols).map pyStrip) ∧
        normalize_symbol raw = some s) := by
  refine ⟨?_, ?_, by decide, by decide, by decide, by decide, ?_⟩
  · intro v h
    unfold normalize_symbol
    exact if_pos h
  · intro v h1 h2
    unfold normalize_symbol
    rw [if_neg]
    push_neg
    exact ⟨h1, by omega⟩
  · intro args s hs
    unfold parse_symbols at hs
    rcases foldl_tokens_mem _ _ s hs with h' | ⟨raw, hraw, hn⟩
    · rcases foldl_addSymbolIfNew_mem _ _ s h' with h'' | ⟨raw, hraw, hn⟩
      · exact absurd h'' (List.not_mem_nil s)
      · exact ⟨raw, Or.inl hraw, hn⟩
    · exact ⟨raw, Or.inr hraw, hn⟩

/-- Witness for C9: the padding branch applied to `"5930"`. -/
theorem claim_C9_witness : normalize_symbol "5930" = some "005930" := by
  have h := claim_C9.2.1 "5930" (by decide) (by decide)
  rw [h]
  decide

/-! ## C8 -/

theorem marginRowFor_invariant (call1 : String → Except String PsblOrderResp)
    (call2 : String → Except String IntgrMarginResp) (s : String) :
    ((marginRowFor call1 call2 s).is_full_margin = true ↔
      ∃ r, (marginRowFor call1 call2 s).margin_rate_pct = some r ∧ (100 : Rat) ≤ r) ∧
    ((marginRowFor call1 call2 s).margin_rate_pct = none →
      (marginRowFor call1 call2 s).collection_status = "failed" ∧
      (marginRowFor call1 call2 s).is_full_margin = false) := by
  cases hc1 : call1 s with
  | error e => simp [marginRowFor, hc1]
  | ok d1 =>
    by_cases h1 : d1.rt_cd = "0"
    · cases hc2 : call2 s with
      | error e => simp [marginRowFor, hc1, h1, hc2]
      | ok d2 =>
        by_cases h2 : d2.rt_cd = "0"
        · cases hr : d2.acmga_rt with
          | none => simp [marginRowFor, hc1, h1, hc2, h2, hr]
          | some r =>
            by_cases hge : (100 : Rat) ≤ r
            · simp [marginRowFor, hc1, h1, hc2, h2, hr, hge]
            · simp [marginRowFor, hc1, h1, hc2, h2, hr, hge]
        · simp [marginRowFor, hc1, h1, hc2, h2]
    · simp [marginRowFor, hc1, h1]

/-- C8: every row `fetch_margin_rows` produces satisfies
`is_full_margin ↔ (margin_rate_pct is non-null and at least 100)`; a null
rate always comes with collection status `failed` and a false flag; with a
usable account the batch yields exactly one row per symbol, in order; and an
exception in either of the two per-symbol calls is caught and recorded as that
symbol's `failed` row instead of aborting the batch. -/
theorem claim_C8 :
    (∀ (call1 : String → Except String PsblOrderResp)
        (call2 : String → Except String IntgrMarginResp)
        (account_no : String) (symbols : List String) (row : MarginRow),
      row ∈ fetch_margin_rows call1 call2 account_no symbols →
      (row.is_full_margin = true ↔ ∃ r, row.margin_rate_pct = some r ∧ (100 : Rat) ≤ r) ∧
      (row.margin_rate_pct = none →
        row.collection_status = "failed" ∧ row.is_full_margin = false)) ∧
    (∀ (call1 : String → Except String PsblOrderResp)
        (call2 : String → Except String IntgrMarginResp)
        (account_no : String) (symbols : List String),
      ¬(account_no = "" ∨ account_no.length < 10) →
      fetch_margin_rows call1 call2 account_no symbols =
        symbols.map (marginRowFor call1 call2)) ∧
    (∀ (call1 : String → Except String PsblOrderResp)
        (call2 : String → Except String IntgrMarginResp) (s e : String),
      call1 s = .error e →
      marginRowFor call1 call2 s =
        { symbol := s, margin_rate_pct := none, is_full_margin := false,
          collection_status := "failed", message := "조회 실패: " ++ e }) ∧
    (∀ (call1 : String → Except String PsblOrderResp)
        (call2 : String → Except String IntgrMarginResp) (s e : String)
        (d1 : PsblOrderResp),
      call1 s = .ok d1 → d1.rt_cd = "0" → call2 s = .error e →
      marginRowFor call1 call2 s =
        { symbol := s, margin_rate_pct := none, is_full_margin := false,
          collection_status := "failed", message := "조회 실패: " ++ e }) := by
  refine ⟨?_, ?_, ?_, ?_⟩
  · intro call1 call2 account_no symbols row hrow
    unfold fetch_margin_rows at hrow
    by_cases hs : symbols = []
    · rw [if_pos hs] at hrow
      exact absurd hrow (List.not_mem_nil row)
    · rw [if_neg hs] at hrow
      by_cases ha : account_no = "" ∨ account_no.length < 10
      · rw [if_pos ha] at hrow
        exact absurd hrow (List.not_mem_nil row)
      · rw [if_neg ha] at hrow
        rcases List.mem_map.mp hrow with ⟨s, _, hrfl⟩
        rw [← hrfl]
        exact marginRowFor_invariant call1 call2 s
  · intro call1 call2 account_no symbols ha
    unfold fetch_margin_rows
    by_cases hs : symbols = []
    · rw [if_pos hs, hs]; rfl
    · rw [if_neg hs, if_neg ha]
  · intro call1 call2 s e h1
    simp [marginRowFor, h1]
  · intro call1 call2 s e d1 h1 hrt h2
    simp [marginRowFor, h1, hrt, h2]

/-- Witness for C8 at a concrete batch: rates 100, 99.9 and missing give
full-margin flags `[true, false, false]` and statuses
`["collected", "collected", "failed"]`, one row per symbol. -/
theorem claim_C8_witness :
    ¬(("1234567890" : String) = "" ∨ ("1234567890" : String).length < 10) ∧
    fetch_margin_rows cMarginCall1 cMarginCall2 "1234567890" ["000001", "000002", "000003"] =
      ["000001", "000002", "000003"].map (marginRowFor cMarginCall1 cMarginCall2) ∧
    (fetch_margin_rows cMarginCall1 cMarginCall2 "1234567890"
      ["000001", "000002", "000003"]).map MarginRow.is_full_margin = [true, false, false] ∧
    (fetch_margin_rows cMarginCall1 cMarginCall2 "1234567890"
      ["000001", "000002", "000003"]).map MarginRow.collection_status =
      ["collected", "collected", "failed"] :=
  ⟨by decide,
   claim_C8.2.1 cMarginCall1 cMarginCall2 "1234567890" ["000001", "000002", "000003"] (by decide),
   by decide, by decide⟩

/-! ## C1 and C2: the pagination loop -/

theorem fetchLoop_empty_stop (page : String → Except String KisResponse)
    (sym tf fd : String) (fuel : Nat) (ct : String) (acc : List PriceRow)
    (r : KisResponse) (hpage : page ct = .ok r) (hrt : r.rt_cd = "0")
    (hout : effectiveOutput r = []) :
    fetchLoop page sym tf fd (fuel + 1) ct acc =
      { rows := acc, calls := [ct], error := none } := by
  simp [fetchLoop, hpage, hrt, hout]

theorem fetchLoop_last_stop (page : String → Except String KisResponse)
    (sym tf fd : String) (fuel : Nat) (ct : String) (acc : List PriceRow)
    (r : KisResponse) (prows : List PriceRow) (o : String)
    (hpage : page ct = .ok r) (hrt : r.rt_cd = "0")
    (hproc : processPage sym tf (effectiveOutput r) = (prows, some o))
    (hlt : pyStrLt fd o = false) :
    fetchLoop page sym tf fd (fuel + 1) ct acc =
      { rows := acc ++ prows, calls := [ct], error := none } := by
  cases hout : effectiveOutput r with
  | nil =>
    rw [hout] at hproc
    simp [processPage] at hproc
  | cons x xs =>
    rw [hout] at hproc
    simp [fetchLoop, hpage, hrt, hout, hproc, hlt]

theorem fetchLoop_slide (page : String → Except String KisResponse)
    (sym tf fd : String) (fuel : Nat) (ct : String) (acc : List PriceRow)
    (r : KisResponse) (prows : List PriceRow) (o : String) (dt : GDate)
    (hpage : page ct = .ok r) (hrt : r.rt_cd = "0")
    (hproc : processPage sym tf (effectiveOutput r) = (prows, some o))
    (hlt : pyStrLt fd o = true) (hparse : parseYYYYMMDD o = some dt)
    (hne : dt ≠ ⟨1, 1, 1⟩) :
    fetchLoop page sym tf fd (fuel + 1) ct acc =
      { rows := (fetchLoop page sym tf fd fuel (formatYYYYMMDD (prevDay dt)) (acc ++ prows)).rows
        calls := ct :: (fetchLoop page sym tf fd fuel (formatYYYYMMDD (prevDay dt)) (acc ++ prows)).calls
        error := (fetchLoop page sym tf fd fuel (formatYYYYMMDD (prevDay dt)) (acc ++ prows)).error } := by
  have hslide : slideCurrentTo o = .next (formatYYYYMMDD (prevDay dt)) := by
    simp [slideCurrentTo, hparse, hne]
  cases hout : effectiveOutput r with
  | nil =>
    rw [hout] at hproc
    simp [processPage] at hproc
  | cons x xs =>
    rw [hout] at hproc
    simp [fetchLoop, hpage, hrt, hout, hproc, hlt, hslide]

theorem fetchLoop_calls_le (page : String → Except String KisResponse)
    (sym tf fd : String) :
    ∀ (fuel : Nat) (ct : String) (acc : List PriceRow),
      (fetchLoop page sym tf fd fuel ct acc).calls.length ≤ fuel := by
  intro fuel
  induction fuel with
  | zero => intro ct acc; simp [fetchLoop]
  | succ n ih =>
    intro ct acc
    cases hpage : page ct with
    | error e => simp [fetchLoop, hpage]
    | ok data =>
      by_cases hrt : data.rt_cd = "0"
      · cases hout : effectiveOutput data with
        | nil => simp [fetchLoop, hpage, hrt, hout]
        | cons x xs =>
          cases hold : (processPage sym tf (x :: xs)).2 with
          | none =>
            simp [fetchLoop, hpage, hrt, hout, hold]
          | some o =>
            by_cases hlt : pyStrLt fd o = true
            · cases hslide : slideCurrentTo o with
              | halt =>
                simp [fetchLoop, hpage, hrt, hout, hold, hlt, hslide]
              | overflow =>
                simp [fetchLoop, hpage, hrt, hout, hold, hlt, hslide]
              | next c2 =>
                have h := ih c2 (acc ++ (processPage sym tf (x :: xs)).1)
                simp [fetchLoop, hpage, hrt, hout, hold, hlt, hslide]
                omega
            · have hlt' : pyStrLt fd o = false := by
                cases h : pyStrLt fd o
                · rfl
                · exact absurd h hlt
              simp [fetchLoop, hpage, hrt, hout, hold, hlt']
      · simp [fetchLoop, hpage, hrt]

/-- C1 counterexample: a first page whose oldest (minimum) candle date equals
the requested `from` date (`20240101`), served in ascending order. The claim
says the loop ends after exactly one page, but the source slides on the LAST
candle date of the page (`20240110` here), so a second page is requested:
two pages are performed, not one. -/
theorem claim_C1_counterexample :
    cxPageC1 "005930" "D" "20240101" "20240110" =
      .ok { rt_cd := "0",
            output2 := some [{ stck_bsop_date := "20240101" }, { stck_bsop_date := "20240110" }] } ∧
    oldestDateSpec [{ stck_bsop_date := "20240101" }, { stck_bsop_date := "20240110" }] =
      some "20240101" ∧
    (fetch_price_rows cxPageC1 "005930" "D" (some "20240101") (some "20240110")
      ⟨2024, 5, 15⟩ 3).calls.length = 2 :=
  ⟨by rfl, by decide, by decide⟩

/-- C1 (amended): the pagination loop stops after the page on which the
provider reports failure or an empty list; it stops after a page whose LAST
non-empty candle date — the date the source tracks, which is the minimum only
when the provider serves candles in descending date order — is not strictly
after `from` (in particular, a page whose last candle date equals `from` ends
the loop after exactly that one page); and it never performs more pages than
`max_pages`, which is 3 under the CLI default `--kis-max-price-pages 3`,
regardless of the provider's behavior. -/
theorem claim_C1 :
    (∀ (page : String → Except String KisResponse) (sym tf fd : String) (fuel : Nat)
        (ct : String) (acc : List PriceRow) (r : KisResponse),
      page ct = .ok r → r.rt_cd = "0" → effectiveOutput r = [] →
      fetchLoop page sym tf fd (fuel + 1) ct acc =
        { rows := acc, calls := [ct], error := none }) ∧
    (∀ (page : String → Except String KisResponse) (sym tf fd : String) (fuel : Nat)
        (ct : String) (acc : List PriceRow) (r : KisResponse) (prows : List PriceRow)
        (o : String),
      page ct = .ok r → r.rt_cd = "0" →
      processPage sym tf (effectiveOutput r) = (prows, some o) →
      pyStrLt fd o = false →
      fetchLoop page sym tf fd (fuel + 1) ct acc =
        { rows := acc ++ prows, calls := [ct], error := none }) ∧
    (∀ (page : String → Except String KisResponse) (sym tf fd : String) (fuel : Nat)
        (ct : String) (acc : List PriceRow),
      (fetchLoop page sym tf fd fuel ct acc).calls.length ≤ fuel) ∧
    (∀ (page : String → String → String → String → Except String KisResponse)
        (sym tf : String) (date_from date_to : Option String) (todayD : GDate),
      (fetch_price_rows page sym tf date_from date_to todayD
        (max 1 ({} : Args).kis_max_price_pages).toNat).calls.length ≤ 3) := by
  refine ⟨fetchLoop_empty_stop, fetchLoop_last_stop, fetchLoop_calls_le, ?_⟩
  intro page sym tf date_from date_to todayD
  exact fetchLoop_calls_le _ _ _ _ 3 _ []

/-- Witness for C1: a single page holding one candle dated exactly `from`
terminates after one page with that candle collected. -/
theorem claim_C1_witness :
    fetchLoop
      (fun _ => .ok { rt_cd := "0", output2 := some [{ stck_bsop_date := "20240101" }] })
      "005930" "D" "20240101" 3 "20240101" [] =
      { rows := [mkPriceRow "005930" "D" { stck_bsop_date := "20240101" } "20240101"],
        calls := ["20240101"], error := none } :=
  claim_C1.2.1
    (fun _ => .ok { rt_cd := "0", output2 := some [{ stck_bsop_date := "20240101" }] })
    "005930" "D" "20240101" 2 "20240101" []
    { rt_cd := "0", output2 := some [{ stck_bsop_date := "20240101" }] }
    [mkPriceRow "005930" "D" { stck_bsop_date := "20240101" } "20240101"] "20240101"
    rfl rfl (by decide) (by decide)

theorem getLast?_getD_of_ne_nil {α : Type} (l : List α) (c : α) (h : l ≠ []) :
    some (l.getLast?.getD c) = l.getLast? := by
  induction l with
  | nil => exact absurd rfl h
  | cons a l ih =>
    cases l with
    | nil => rfl
    | cons b l' =>
      rw [List.getLast?_cons_cons]
      simpa [List.getLast?_cons_cons] using ih (by simp)

/-- The source's tracked `oldest` is the page's LAST non-empty candle date. -/
theorem processPage_snd (sym tf : String) : ∀ output : List RawCandle,
    (processPage sym tf output).2 = lastPageDate output := by
  intro output
  induction output with
  | nil => rfl
  | cons raw rest ih =>
    by_cases hc : pyStrip raw.stck_bsop_date = ""
    · show (processPage sym tf (raw :: rest)).2 = _
      simp only [processPage, hc, if_pos]
      rw [ih]
      simp [lastPageDate, pageDates, hc]
    · simp only [processPage, if_neg hc]
      rw [ih]
      unfold lastPageDate
      have hpd : pageDates (raw :: rest) = pyStrip raw.stck_bsop_date :: pageDates rest := by
        simp [pageDates, hc]
      rw [hpd]
      cases hl : pageDates rest with
      | nil => simp [hl]
      | cons y ys =>
        rw [List.getLast?_cons_cons]
        exact getLast?_getD_of_ne_nil (y :: ys) (pyStrip raw.stck_bsop_date) (by simp)

theorem minFold_desc : ∀ (l : List String) (m : String),
    strictlyDescending (m :: l) = true → minFold (some m) l = (m :: l).getLast? := by
  intro l
  induction l with
  | nil => intro m _; rfl
  | cons s rest ih =>
    intro m hdesc
    have h1 : pyStrLt s m = true ∧ strictlyDescending (s :: rest) = true := by
      simpa [strictlyDescending, Bool.and_eq_true] using hdesc
    show minFold (some (minStr m s)) rest = _
    have hmin : minStr m s = s := by simp [minStr, h1.1]
    rw [hmin, ih s h1.2, List.getLast?_cons_cons]

/-- When the page's dates are strictly descending (the provider's actual
serving order), the last date coincides with the minimum. -/
theorem lastPageDate_eq_oldest_of_descending (output : List RawCandle)
    (h : strictlyDescending (pageDates output) = true) :
    lastPageDate output = oldestDateSpec output := by
  unfold lastPageDate oldestDateSpec
  cases hl : pageDates output with
  | nil => rfl
  | cons m l =>
    rw [hl] at h
    show (m :: l).getLast? = minFold (some m) l
    exact (minFold_desc l m h).symm

/-- C2 counterexample: a page whose candle dates arrive in ascending order
(`20240105`, `20240110`), with `from = 20231201`. The minimum is `20240105`,
so the claim requires the next request's upper bound to be `20240104`; the
source slides on the last date `20240110` and actually requests `20240109`. -/
theorem claim_C2_counterexample :
    cxPageC2 "005930" "D" "20231201" "20240110" =
      .ok { rt_cd := "0",
            output2 := some [{ stck_bsop_date := "20240105" }, { stck_bsop_date := "20240110" }] } ∧
    oldestDateSpec [{ stck_bsop_date := "20240105" }, { stck_bsop_date := "20240110" }] =
      some "20240105" ∧
    pyStrLt "20231201" "20240105" = true ∧
    slideCurrentTo "20240105" = .next "20240104" ∧
    (fetch_price_rows cxPageC2 "005930" "D" (some "20231201") (some "20240110")
      ⟨2024, 5, 15⟩ 3).calls = ["20240110", "20240109"] :=
  ⟨by rfl, by decide, by decide, by decide, by decide⟩

/-- C2 (amended): the date the pagination loop slides on is the page's LAST
row with a non-empty candle date (in page order), not the minimum; whenever
that last date is strictly after `from` and parses, the next request's upper
bound is that date minus one day; the last date equals the claimed minimum
exactly when the provider serves the page in strictly descending date
order. -/
theorem claim_C2 :
    (∀ (sym tf : String) (output : List RawCandle),
      (processPage sym tf output).2 = lastPageDate output) ∧
    (∀ (page : String → Except String KisResponse) (sym tf fd : String) (fuel : Nat)
        (ct : String) (acc : List PriceRow) (r : KisResponse) (prows : List PriceRow)
        (o : String) (dt : GDate),
      page ct = .ok r → r.rt_cd = "0" →
      processPage sym tf (effectiveOutput r) = (prows, some o) →
      pyStrLt fd o = true → parseYYYYMMDD o = some dt → dt ≠ ⟨1, 1, 1⟩ →
      fetchLoop page sym tf fd (fuel + 1) ct acc =
        { rows := (fetchLoop page sym tf fd fuel (formatYYYYMMDD (prevDay dt)) (acc ++ prows)).rows
          calls := ct :: (fetchLoop page sym tf fd fuel (formatYYYYMMDD (prevDay dt)) (acc ++ prows)).calls
          error := (fetchLoop page sym tf fd fuel (formatYYYYMMDD (prevDay dt)) (acc ++ prows)).error }) ∧
    (∀ output : List RawCandle, strictlyDescending (pageDates output) = true →
      lastPageDate output = oldestDateSpec output) :=
  ⟨processPage_snd, fetchLoop_slide, lastPageDate_eq_oldest_of_descending⟩

/-- Witness for C2: on the concrete ascending page the loop's second request
uses upper bound `20240109` = last date `20240110` minus one day. -/
theorem claim_C2_witness :
    (fetchLoop (cxPageC2 "005930" "D" "20231201") "005930" "D" "20231201" 3 "20240110" []).calls =
      "20240110" ::
        (fetchLoop (cxPageC2 "005930" "D" "20231201") "005930" "D" "20231201" 2 "20240109"
          ([] ++ [mkPriceRow "005930" "D" { stck_bsop_date := "20240105" } "20240105",
            mkPriceRow "005930" "D" { stck_bsop_date := "20240110" } "20240110"])).calls := by
  have h := claim_C2.2.1 (cxPageC2 "005930" "D" "20231201") "005930" "D" "20231201" 2
    "20240110" []
    { rt_cd := "0",
      output2 := some [{ stck_bsop_date := "20240105" }, { stck_bsop_date := "20240110" }] }
    [mkPriceRow "005930" "D" { stck_bsop_date := "20240105" } "20240105",
      mkPriceRow "005930" "D" { stck_bsop_date := "20240110" } "20240110"]
    "20240110" ⟨2024, 1, 10⟩
    rfl rfl (by decide) (by decide) (by decide) (by decide)
  exact congrArg FetchResult.calls h

/-! ## C4 -/

/-- C4 counterexample: with a supplied lookback-days of 0 (and the default
window `fast`), the claim's policy (2) demands `[today - 0, today]`, but the
code treats a 0 lookback as unset (Python falsiness) and falls through to the
7-day `fast` window. -/
theorem claim_C4_counterexample :
    derive_price_range { prices_lookback_days := some 0 } ⟨2024, 1, 15⟩ { stock_code := "005930" } =
      (some "20240108", some "20240115") ∧
    derivePriceRangeSpec { prices_lookback_days := some 0 } ⟨2024, 1, 15⟩ { stock_code := "005930" } =
      (some "20240115", some "20240115") ∧
    derive_price_range { prices_lookback_days := some 0 } ⟨2024, 1, 15⟩ { stock_code := "005930" } ≠
      derivePriceRangeSpec { prices_lookback_days := some 0 } ⟨2024, 1, 15⟩ { stock_code := "005930" } :=
  ⟨by decide, by decide, by decide⟩

/-- C4 (amended): the five policies evaluate in order with first match
winning, where policy (2) requires a supplied AND non-zero lookback-days — a
lookback of 0 is treated as unset and falls through to the window policies.
Policies: (1) explicit parsed overrides, missing side `None`; (2) non-zero
lookback `[today - days, today]`; (3) `fast`/`normal` window; (4) `full` or
backfill `[listed_date or 19900101, today]`; (5) `(None, None)`. The claim's
two concrete examples hold. -/
theorem claim_C4 :
    (∀ (args : Args) (td : GDate) (sym : SymbolEntry),
      (to_yyyymmdd args.as_of_from).isSome ∨ (to_yyyymmdd args.as_of_to).isSome →
      derive_price_range args td sym = (to_yyyymmdd args.as_of_from, to_yyyymmdd args.as_of_to)) ∧
    (∀ (args : Args) (td : GDate) (sym : SymbolEntry) (d : Int),
      to_yyyymmdd args.as_of_from = none → to_yyyymmdd args.as_of_to = none →
      args.prices_lookback_days = some d → d ≠ 0 →
      derive_price_range args td sym =
        (some (formatYYYYMMDD (dateSubDaysInt td d)), some (formatYYYYMMDD td))) ∧
    (∀ (args : Args) (td : GDate) (sym : SymbolEntry),
      to_yyyymmdd args.as_of_from = none → to_yyyymmdd args.as_of_to = none →
      args.prices_lookback_days.getD 0 = 0 →
      args.prices_window ∈ (["fast", "normal"] : List String) →
      derive_price_range args td sym =
        (some (formatYYYYMMDD
          (dateSubDays td (((PRICES_WINDOWS.lookup args.prices_window).getD none).getD 0))),
         some (formatYYYYMMDD td))) ∧
    (∀ (args : Args) (td : GDate) (sym : SymbolEntry),
      to_yyyymmdd args.as_of_from = none → to_yyyymmdd args.as_of_to = none →
      args.prices_lookback_days.getD 0 = 0 →
      args.prices_window ∉ (["fast", "normal"] : List String) →
      (args.prices_window = "full" ∨ args.prices_backfill = true) →
      derive_price_range args td sym =
        (some (pyOrOpt sym.listed_date "19900101"), some (formatYYYYMMDD td))) ∧
    (∀ (args : Args) (td : GDate) (sym : SymbolEntry),
      to_yyyymmdd args.as_of_from = none → to_yyyymmdd args.as_of_to = none →
      args.prices_lookback_days.getD 0 = 0 →
      args.prices_window ∉ (["fast", "normal"] : List String) →
      ¬(args.prices_window = "full" ∨ args.prices_backfill = true) →
      derive_price_range args td sym = (none, none)) ∧
    derive_price_range { as_of_from := some "20240101", prices_window := "fast" } ⟨2024, 5, 15⟩
      { stock_code := "005930" } = (some "20240101", none) ∧
    derive_price_range { prices_window := "full" } ⟨2024, 5, 15⟩
      { stock_code := "005930", listed_date := none } = (some "19900101", some "20240515") := by
  refine ⟨?_, ?_, ?_, ?_, ?_, by decide, by decide⟩
  · intro args td sym h
    simp only [derive_price_range]
    rw [if_pos h]
  · intro args td sym d h1 h2 h3 h4
    simp [derive_price_range, h1, h2, h3, h4]
  · intro args td sym h1 h2 h3 h4
    simp [derive_price_range, h1, h2, h3, h4]
  · intro args td sym h1 h2 h3 h4 h5
    simp [derive_price_range, h1, h2, h3, h4, h5]
  · intro args td sym h1 h2 h3 h4 h5
    simp [derive_price_range, h1, h2, h3, h4, h5]

/-- Witness for C4: the explicit-override policy applied to
`as_of_from = "20240101"` with window `fast`. -/
theorem claim_C4_witness :
    ((to_yyyymmdd (some "20240101")).isSome ∨ (to_yyyymmdd none).isSome) ∧
    derive_price_range { as_of_from := some "20240101", prices_window := "fast" } ⟨2024, 5, 15⟩
      { stock_code := "005930" } = (some "20240101", none) :=
  ⟨by decide,
   (claim_C4.1 { as_of_from := some "20240101", prices_window := "fast" } ⟨2024, 5, 15⟩
     { stock_code := "005930" } (by decide)).trans (by decide)⟩

/-! ## C10 -/

theorem upsertPriceRows_count (run_id : String) (as_of : Option String) (now : String) :
    ∀ (ps : List PriceRow) (c : Conn) (cnt : Nat),
      (upsertPriceRows run_id as_of now ps c cnt).2 = cnt + ps.length := by
  intro ps
  induction ps with
  | nil => intro c cnt; simp [upsertPriceRows]
  | cons p ps ih =>
    intro c cnt
    show (upsertPriceRows run_id as_of now ps (upsert_price c run_id p as_of now) (cnt + 1)).2 = _
    rw [ih]
    simp [List.length_cons]
    omega

/-- C10: a fetched price row whose candle date does not normalize is dropped
by `upsert_price` without touching the store, while the prices loop still
increments the run's `price_rows` counter once per fetched row; consequently
a run exists (one page with candle dates `20240104` and `abc1`) whose run row
reports `price_rows = 2` while only one candle row is persisted for it. -/
theorem claim_C10 :
    (∀ (c : Conn) (run_id : String) (row : PriceRow) (as_of : Option String) (now : String),
      to_iso_date (some row.candle_at) = none →
      upsert_price c run_id row as_of now = c) ∧
    (∀ (run_id : String) (as_of : Option String) (now : String) (ps : List PriceRow)
        (c : Conn) (cnt : Nat),
      (upsertPriceRows run_id as_of now ps c cnt).2 = cnt + ps.length) ∧
    (run_ingest cArgsPrices cNetMixedDates {} "r1" "t0" "t1" ⟨2024, 1, 10⟩).status = "success" ∧
    (run_ingest cArgsPrices cNetMixedDates {} "r1" "t0" "t1" ⟨2024, 1, 10⟩).row.price_rows = 2 ∧
    (run_ingest cArgsPrices cNetMixedDates {} "r1" "t0" "t1"
      ⟨2024, 1, 10⟩).store.raw_price_ohlcv.map PriceDbRow.run_id = ["r1"] := by
  refine ⟨?_, upsertPriceRows_count, by decide, by decide, by decide⟩
  intro c run_id row as_of now h
  simp [upsert_price, mkPriceDbRow, h]

/-- Witness for C10: upserting the fetched row with candle date `abc1` leaves
the connection unchanged. -/
theorem claim_C10_witness :
    to_iso_date (some (mkPriceRow "005930" "D" { stck_bsop_date := "abc1" } "abc1").candle_at) =
      none ∧
    upsert_price (connectStore cStoreOneSymbol) "r1"
      (mkPriceRow "005930" "D" { stck_bsop_date := "abc1" } "abc1") none "t1" =
      connectStore cStoreOneSymbol :=
  ⟨by decide,
   claim_C10.1 (connectStore cStoreOneSymbol) "r1"
     (mkPriceRow "005930" "D" { stck_bsop_date := "abc1" } "abc1") none "t1" (by decide)⟩

/-! ## C3 -/

/-- C3 counterexample: an `all`-scope, non-dry run with no DART credential
against a store whose `symbol_universe` is non-empty. The claim says such a
run proceeds via the persisted fallback; the code's `ensure_exported_env`
requires `DART_API_KEY` whenever scope is `all`, so the run aborts with exit
code 3 before symbol resolution is ever reached. -/
theorem claim_C3_counterexample :
    cStoreOneSymbol.symbol_universe ≠ [] ∧
    cArgsAllScopeNoDart.scope = "all" ∧
    cArgsAllScopeNoDart.dry_run = false ∧
    cArgsAllScopeNoDart.dart_api_key = "" ∧
    (run_ingest cArgsAllScopeNoDart cNetOk cStoreOneSymbol "r" "s" "n" ⟨2024, 1, 10⟩).exit_code
      = 3 ∧
    (run_ingest cArgsAllScopeNoDart cNetOk cStoreOneSymbol "r" "s" "n" ⟨2024, 1, 10⟩).status
      = "setup_required" :=
  ⟨by decide, by decide, by decide, by decide, by decide, by decide⟩

theorem ensure_no_ok_of_all_scope_no_dart (args : Args)
    (hscope : pyLower (pyStrip args.scope) = "all") (hdry : args.dry_run = false)
    (hdart : pyStrip args.dart_api_key = "") :
    ∀ v, ensure_exported_env args ≠ .ok v := by
  intro v hok
  simp [ensure_exported_env, hscope, hdry, hdart, List.append_eq_nil] at hok

/-- C3 (amended): for a non-dry run whose (stripped, lowered) scope is `all`
and whose DART credential is blank, `run_ingest` returns the exit-code-3
configuration error before symbol resolution, regardless of what is persisted
in `symbol_universe`. The persisted-store fallback lives inside
`resolve_symbols` and is reachable only when that function is invoked with a
blank credential: there it returns the persisted entries (failing only when
they are empty), and it raises the configuration error exactly when the
persisted table is also empty. -/
theorem claim_C3 :
    (∀ (args : Args) (net : NetOracles) (store0 : Store) (rid sat now : String) (td : GDate),
      pyLower (pyStrip args.scope) = "all" → args.dry_run = false →
      pyStrip args.dart_api_key = "" →
      (run_ingest args net store0 rid sat now td).exit_code = 3 ∧
      (run_ingest args net store0 rid sat now td).status = "setup_required") ∧
    (∀ (conn : Conn) (args : Args) (notes : List String)
        (dc : Except String (List SymbolEntry)),
      args.scope ≠ "single" → conn.pending.symbol_universe ≠ [] →
      ∃ es ns, resolve_symbols conn args notes "" dc = .ok (es, ns) ∧ es ≠ []) ∧
    (∀ (conn : Conn) (args : Args) (notes : List String)
        (dc : Except String (List SymbolEntry)),
      args.scope ≠ "single" → conn.pending.symbol_universe = [] →
      resolve_symbols conn args notes "" dc =
        .error ("scope=all 심볼 소스를 찾지 못했습니다. DART_API_KEY를 export 하거나 sqlite symbol_universe를 먼저 채우세요.",
          notes)) := by
  refine ⟨?_, ?_, ?_⟩
  · intro args net store0 rid sat now td hscope hdry hdart
    cases hE : ensure_exported_env args with
    | error msg => simp [run_ingest, hE]
    | ok v => exact absurd hE (ensure_no_ok_of_all_scope_no_dart args hscope hdry hdart v)
  · intro conn args notes dc hscope hne
    have hmapne : ∀ (f : SymbolRow → SymbolEntry),
        conn.pending.symbol_universe.map f ≠ [] := by
      intro f h
      exact hne (List.map_eq_nil_iff.mp h)
    cases hlim : args.limit_symbols with
    | none =>
      simp only [resolve_symbols, if_neg hscope, ne_eq, not_true_eq_false, if_false,
        if_pos (hmapne _), if_neg (hmapne _), hlim]
      exact ⟨_, _, rfl, hmapne _⟩
    | some n =>
      by_cases hn : 0 < n
      · simp only [resolve_symbols, if_neg hscope, ne_eq, not_true_eq_false, if_false,
          if_pos (hmapne _), if_neg (hmapne _), hlim, if_pos hn]
        refine ⟨_, _, rfl, ?_⟩
        intro htake
        rcases List.take_eq_nil_iff.mp htake with h | h
        · have h2 := Int.toNat_of_nonneg (le_of_lt hn)
          omega
        · exact hmapne _ h
      · simp only [resolve_symbols, if_neg hscope, ne_eq, not_true_eq_false, if_false,
          if_pos (hmapne _), if_neg (hmapne _), hlim, if_neg hn]
        exact ⟨_, _, rfl, hmapne _⟩
  · intro conn args notes dc hscope hempty
    simp [resolve_symbols, if_neg hscope, hempty]

/-- Witness for C3: against the store holding one persisted symbol, a
credential-less `resolve_symbols` call in `all` scope succeeds with a
non-empty entry list. -/
theorem claim_C3_witness :
    cArgsAllScopeNoDart.scope ≠ "single" ∧
    (connectStore cStoreOneSymbol).pending.symbol_universe ≠ [] ∧
    ∃ es ns,
      resolve_symbols (connectStore cStoreOneSymbol) cArgsAllScopeNoDart [] "" (.ok []) =
        .ok (es, ns) ∧ es ≠ [] :=
  ⟨by decide, by decide,
   claim_C3.2.1 (connectStore cStoreOneSymbol) cArgsAllScopeNoDart [] (.ok [])
     (by decide) (by decide)⟩

/-- The stage-end commit returns a connection whose committed and pending
stores agree whenever it actually fired (its result carries no error). -/
theorem commitUnlessErr_sync (st : IngestState) (h : (commitUnlessErr st).err = none) :
    (commitUnlessErr st).conn.committed = (commitUnlessErr st).conn.pending := by
  cases hl : st.err with
  | some e => simp [commitUnlessErr, hl] at h
  | none => simp [commitUnlessErr, hl, Conn.commit]

/-- The stage-end commit never changes the pending price or symbol tables. -/
theorem commitUnlessErr_tables (st : IngestState) :
    (commitUnlessErr st).conn.pending.raw_price_ohlcv = st.conn.pending.raw_price_ohlcv ∧
    (commitUnlessErr st).conn.pending.symbol_universe = st.conn.pending.symbol_universe := by
  cases hl : st.err with
  | some e => simp [commitUnlessErr, hl]
  | none => simp [commitUnlessErr, hl, Conn.commit]

/-- The symbols loop never sets the pending exception. -/
theorem symbolsLoop_err (ctx : StageCtx) (syms : List SymbolEntry) : ∀ (st : IngestState),
    (symbolsLoop ctx syms st).err = st.err := by
  induction syms with
  | nil => intro st; rfl
  | cons s rest ih =>
    intro st
    simp only [symbolsLoop]
    rw [ih]

/-- The symbols stage never sets the pending exception. -/
theorem symbolsStage_err (ctx : StageCtx) (st : IngestState) :
    (symbolsStage ctx st).err = st.err :=
  symbolsLoop_err ctx ctx.symbols st

/-- A prices stage that ran with a KIS client and raised no exception ends in
a committed connection: its committed and pending stores agree. -/
theorem pricesStage_sync (ctx : StageCtx) (st : IngestState) (hkis : ctx.kis_present = true)
    (herr : (pricesStage ctx st).err = none) :
    (pricesStage ctx st).conn.committed = (pricesStage ctx st).conn.pending := by
  have hnn : ¬¬(ctx.kis_present = true) := fun h => h hkis
  unfold pricesStage at herr ⊢
  rw [if_neg hnn] at herr ⊢
  exact commitUnlessErr_sync _ herr

/-- One fundamentals upsert fold touches only `raw_fundamental_statement`:
the pending price and symbol tables pass through unchanged. -/
theorem fundFold_tables (rid now : String) (fs : List FundRow) : ∀ (c : Conn) (k : Nat),
    ((fs.foldl (fun (acc : Conn × Nat) f => (upsert_fundamental acc.1 rid f now, acc.2 + 1))
      (c, k)).1).pending.raw_price_ohlcv = c.pending.raw_price_ohlcv ∧
    ((fs.foldl (fun (acc : Conn × Nat) f => (upsert_fundamental acc.1 rid f now, acc.2 + 1))
      (c, k)).1).pending.symbol_universe = c.pending.symbol_universe := by
  induction fs with
  | nil => intro c k; exact ⟨rfl, rfl⟩
  | cons f fs ih =>
    intro c k
    exact ⟨(ih (upsert_fundamental c rid f now) (k + 1)).1,
           (ih (upsert_fundamental c rid f now) (k + 1)).2⟩

/-- The financials loop never writes to the pending price or symbol tables. -/
theorem fundLoop_tables (ctx : StageCtx) (syms : List SymbolEntry) : ∀ (st : IngestState),
    (fundLoop ctx syms st).conn.pending.raw_price_ohlcv = st.conn.pending.raw_price_ohlcv ∧
    (fundLoop ctx syms st).conn.pending.symbol_universe = st.conn.pending.symbol_universe := by
  induction syms with
  | nil => intro st; exact ⟨rfl, rfl⟩
  | cons s rest ih =>
    intro st
    cases hf : ctx.net.fundamentals s.stock_code with
    | error e =>
      simp [fundLoop, hf]
    | ok f_rows =>
      simp only [fundLoop, hf]
      refine ⟨(ih _).1.trans ?_, (ih _).2.trans ?_⟩
      · exact (fundFold_tables ctx.run_id ctx.nowStr f_rows st.conn st.row.fundamental_rows).1
      · exact (fundFold_tables ctx.run_id ctx.nowStr f_rows st.conn st.row.fundamental_rows).2

/-- The financials stage never writes to the pending price or symbol tables,
whether it runs, skips, or raises. -/
theorem financialsStage_tables (ctx : StageCtx) (st : IngestState) :
    (financialsStage ctx st).conn.pending.raw_price_ohlcv = st.conn.pending.raw_price_ohlcv ∧
    (financialsStage ctx st).conn.pending.symbol_universe = st.conn.pending.symbol_universe := by
  unfold financialsStage
  by_cases hk : ¬ctx.kis_present
  · rw [if_pos hk]
    exact ⟨rfl, rfl⟩
  · rw [if_neg hk]
    exact ⟨(commitUnlessErr_tables _).1.trans (fundLoop_tables ctx ctx.symbols st).1,
           (commitUnlessErr_tables _).2.trans (fundLoop_tables ctx ctx.symbols st).2⟩

/-- A stage runs exactly when its category is enabled and no earlier stage
raised. -/
theorem runStage_run (cat : String) (cats : List String) (f : IngestState → IngestState)
    (st : IngestState) (h1 : st.err = none) (h2 : cat ∈ cats) :
    runStage cat cats f st = f st := by
  simp [runStage, h1, h2]

/-- A pending exception skips every later stage. -/
theorem runStage_skip (cat : String) (cats : List String) (f : IngestState → IngestState)
    (st : IngestState) (e : String) (h : st.err = some e) :
    runStage cat cats f st = st := by
  simp [runStage, h]

/-- The run epilogue writes only the `ingest_runs` table: the durable price
and symbol tables of the final store are the connection's pending ones. -/
theorem finalizeRun_tables (conn : Conn) (row : RunRow) (notes : List String)
    (err : Option String) (now : String) :
    (finalizeRun conn row notes err now).store.raw_price_ohlcv = conn.pending.raw_price_ohlcv ∧
    (finalizeRun conn row notes err now).store.symbol_universe = conn.pending.symbol_universe :=
  ⟨rfl, rfl⟩

/-- A run finalized with a pending exception reports `failed`, exit code 1
and the exception message. -/
theorem finalizeRun_failed (conn : Conn) (row : RunRow) (notes : List String)
    (msg now : String) :
    (finalizeRun conn row notes (some msg) now).status = "failed" ∧
    (finalizeRun conn row notes (some msg) now).exit_code = 1 ∧
    (finalizeRun conn row notes (some msg) now).error_message = some msg :=
  ⟨rfl, rfl, rfl⟩

/-- C6: each category pipeline commits its writes before the next category
begins; in any run whose prices stage completed without an exception (with a
KIS client present) and whose financials stage then raised, the run is
finalized with status `failed`, exit code 1 and the raised message recorded,
while the price rows (and symbol rows) committed by the earlier stages are
exactly the rows found in the final durable store: no rollback of earlier
categories occurs. -/
theorem claim_C6 (args : Args) (net : NetOracles) (store0 : Store)
    (rid sat now : String) (td : GDate) (cats : List String)
    (syms : List SymbolEntry) (notes1 : List String) (msg : String)
    (hens : ensure_exported_env args =
      .ok (args.kis_app_key, args.kis_app_secret, args.dart_api_key))
    (hdry : args.dry_run = false)
    (hcats : RUN_TYPE_TO_CATEGORIES.lookup args.run_type = some cats)
    (hres : resolve_symbols (initialConn args store0 rid sat) args [] args.dart_api_key
      net.dart_corp_codes = .ok (syms, notes1))
    (hkis : (args.kis_app_key ≠ "" && args.kis_app_secret ≠ "") = true)
    (hp : "prices" ∈ cats) (hf : "financials" ∈ cats)
    (hpok : (stAfterPrices args net store0 rid sat now td cats syms notes1).err = none)
    (hferr : (financialsStage
        (ingestCtx args net args.kis_app_key args.kis_app_secret args.dart_api_key rid now td syms)
        (stAfterPrices args net store0 rid sat now td cats syms notes1)).err = some msg) :
    (run_ingest args net store0 rid sat now td).status = "failed" ∧
    (run_ingest args net store0 rid sat now td).exit_code = 1 ∧
    (run_ingest args net store0 rid sat now td).error_message = some msg ∧
    (run_ingest args net store0 rid sat now td).store.raw_price_ohlcv =
      (stAfterPrices args net store0 rid sat now td cats syms notes1).conn.committed.raw_price_ohlcv ∧
    (run_ingest args net store0 rid sat now td).store.symbol_universe =
      (stAfterPrices args net store0 rid sat now td cats syms notes1).conn.committed.symbol_universe := by
  set C := ingestCtx args net args.kis_app_key args.kis_app_secret args.dart_api_key
    rid now td syms with hC
  set st0 := initialIngestState args store0 rid sat syms notes1 with hst0
  set stP := stAfterPrices args net store0 rid sat now td cats syms notes1 with hstP
  have h0 : stP = runStage "prices" cats (pricesStage C)
      (runStage "symbols" cats (symbolsStage C) st0) := by
    rw [hstP, hst0, hC]
    exact rfl
  have hsymerr : (runStage "symbols" cats (symbolsStage C) st0).err = none := by
    by_cases hc : "symbols" ∈ cats
    · simp [runStage, hc, symbolsStage_err, hst0, initialIngestState]
    · simp [runStage, hc, hst0, initialIngestState]
  have hPeq : stP = pricesStage C (runStage "symbols" cats (symbolsStage C) st0) := by
    rw [h0]
    exact runStage_run "prices" cats _ _ hsymerr hp
  have hkisC : C.kis_present = true := by
    rw [hC]
    exact hkis
  have hsync : stP.conn.committed = stP.conn.pending := by
    rw [hPeq]
    exact pricesStage_sync C _ hkisC (hPeq ▸ hpok)
  have hpipe : stagePipeline C cats st0 = financialsStage C stP := by
    simp only [stagePipeline]
    rw [← h0]
    rw [runStage_run "financials" cats (financialsStage C) stP hpok hf]
    rw [runStage_skip "events" cats (eventsStage C) (financialsStage C stP) msg hferr]
    rw [runStage_skip "margins" cats (marginsStage C) (financialsStage C stP) msg hferr]
  have hrun : run_ingest args net store0 rid sat now td =
      finalizeRun (stagePipeline C cats st0).conn (stagePipeline C cats st0).row
        (stagePipeline C cats st0).notes (stagePipeline C cats st0).err now := by
    rw [hC, hst0]
    simp [run_ingest, hens, hdry, hcats, hres]
  rw [hpipe] at hrun
  rw [hferr] at hrun
  refine ⟨?_, ?_, ?_, ?_, ?_⟩
  · rw [hrun]
    exact (finalizeRun_failed _ _ _ msg now).1
  · rw [hrun]
    exact (finalizeRun_failed _ _ _ msg now).2.1
  · rw [hrun]
    exact (finalizeRun_failed _ _ _ msg now).2.2
  · rw [hrun, hsync]
    exact ((finalizeRun_tables _ _ _ _ now).1).trans (financialsStage_tables C stP).1
  · rw [hrun, hsync]
    exact ((finalizeRun_tables _ _ _ _ now).2).trans (financialsStage_tables C stP).2

/-- Witness for C6: the full single-symbol run whose prices page holds one
candle (`20240104`) and whose fundamentals endpoint raises `boom` ends
`failed` with exit code 1 and keeps the one committed price row durable. -/
theorem claim_C6_witness :
    (stAfterPrices cArgsAll cNetFundBoom {} "r1" "t0" "t1" ⟨2024, 1, 10⟩
        ["symbols", "prices", "financials", "events", "margins"]
        [{ stock_code := "005930" }] []).conn.committed.raw_price_ohlcv.length = 1 ∧
    ((run_ingest cArgsAll cNetFundBoom {} "r1" "t0" "t1" ⟨2024, 1, 10⟩).status = "failed" ∧
      (run_ingest cArgsAll cNetFundBoom {} "r1" "t0" "t1" ⟨2024, 1, 10⟩).exit_code = 1 ∧
      (run_ingest cArgsAll cNetFundBoom {} "r1" "t0" "t1" ⟨2024, 1, 10⟩).error_message =
        some "boom" ∧
      (run_ingest cArgsAll cNetFundBoom {} "r1" "t0" "t1" ⟨2024, 1, 10⟩).store.raw_price_ohlcv =
        (stAfterPrices cArgsAll cNetFundBoom {} "r1" "t0" "t1" ⟨2024, 1, 10⟩
          ["symbols", "prices", "financials", "events", "margins"]
          [{ stock_code := "005930" }] []).conn.committed.raw_price_ohlcv ∧
      (run_ingest cArgsAll cNetFundBoom {} "r1" "t0" "t1" ⟨2024, 1, 10⟩).store.symbol_universe =
        (stAfterPrices cArgsAll cNetFundBoom {} "r1" "t0" "t1" ⟨2024, 1, 10⟩
          ["symbols", "prices", "financials", "events", "margins"]
          [{ stock_code := "005930" }] []).conn.committed.symbol_universe) :=
  ⟨by decide,
   claim_C6 cArgsAll cNetFundBoom {} "r1" "t0" "t1" ⟨2024, 1, 10⟩
     ["symbols", "prices", "financials", "events", "margins"]
     [{ stock_code := "005930" }] [] "boom"
     (by rfl) rfl rfl (by rfl) (by decide) (by decide) (by decide) (by decide) (by decide)⟩

end StockIngest
